import Mathlib

/-!
# Sentiment dashboard (`static/js/dashboard.js`)

A shallow embedding of the dashboard script: the count normalisation done by
`displayResults` / `displayCreatorResults`, the platform score, the chart life
cycle, the pie tooltip, the comment list and the PDF / CSV export.

JavaScript numbers are IEEE-754 binary64 values.  Counts are non-negative
integers and are kept as `Nat`; the two places where the script divides
(`/`, then `* 100`, then `toFixed(1)`) go through an exact model of binary64
rounding (`toDouble`), so that the digits produced are the digits a browser
produces.
-/

namespace Dashboard

/-! ## Numbers -/

/-- Result of a floating-point operation on non-negative operands: `NaN`,
`+Infinity`, or the finite value `num / den` (not necessarily in lowest terms). -/
inductive JsNum
  | nan
  | inf
  | fin (num den : Nat)
deriving DecidableEq, Repr

/-- Nearest integer to `a / b`, ties to the even neighbour. -/
def roundHalfEven (a b : Nat) : Nat :=
  let q := a / b
  let r := a % b
  if 2 * r < b then q
  else if b < 2 * r then q + 1
  else if q % 2 = 0 then q else q + 1

/-- Binary logarithm by repeated halving; `fuel` bounds the number of halvings. -/
def log2Fuel : Nat → Nat → Nat
  | 0, _ => 0
  | fuel + 1, n => if n < 2 then 0 else log2Fuel fuel (n / 2) + 1

/-- Floor of the binary logarithm of `n` (0 for `n = 0`). -/
def floorLog2 (n : Nat) : Nat := log2Fuel n n

/-- Exponent `E` with `2 ^ E ≤ a / b < 2 ^ (E + 1)`, for positive `a` and `b`. -/
def binade (a b : Nat) : Int :=
  let l : Int := (floorLog2 a : Int) - (floorLog2 b : Int)
  if 0 ≤ l then (if b * 2 ^ l.toNat ≤ a then l else l - 1)
  else (if b ≤ a * 2 ^ (-l).toNat then l else l - 1)

/-- Round the exact non-negative quotient `a / b` (`b > 0`) to binary64, round to
nearest, ties to even: 53 significant bits, least exponent `-1074` (subnormals),
overflow to `Infinity` from `2 ^ 1024`. -/
def toDouble (a b : Nat) : JsNum :=
  if a = 0 then JsNum.fin 0 1
  else
    let e : Int := max (binade a b - 52) (-1074)
    if 0 ≤ e then
      let m := roundHalfEven a (b * 2 ^ e.toNat)
      if 2 ^ 1024 ≤ m * 2 ^ e.toNat then JsNum.inf else JsNum.fin (m * 2 ^ e.toNat) 1
    else
      JsNum.fin (roundHalfEven (a * 2 ^ (-e).toNat) b) (2 ^ (-e).toNat)

/-- The JavaScript quotient `a / b` of two non-negative integers (each below `2 ^ 53`,
so exactly representable): `0 / 0` is `NaN`, `a / 0` is `Infinity`. -/
def jsDiv (a b : Nat) : JsNum :=
  if b = 0 then (if a = 0 then JsNum.nan else JsNum.inf) else toDouble a b

/-- The JavaScript product `x * k` for a non-negative integer `k`. -/
def jsMul : JsNum → Nat → JsNum
  | JsNum.nan, _ => JsNum.nan
  | JsNum.inf, k => if k = 0 then JsNum.nan else JsNum.inf
  | JsNum.fin a b, k => toDouble (a * k) b

/-- Digits of `n` tenths: the integer part, a point, one decimal. -/
def tenthsToString (n : Nat) : String :=
  toString (n / 10) ++ "." ++ toString (n % 10)

/-- The integer `n` for which `n / 10 - a / b` is closest to zero, the larger one
when there are two (the choice made by `Number.prototype.toFixed`). -/
def nearestTenths (a b : Nat) : Nat := (20 * a + b) / (2 * b)

/-- `Number.prototype.toFixed(1)` for values below `10 ^ 21` (from `10 ^ 21` on the
standard switches to exponent form; no value computed from counts gets there). -/
def toFixed1 : JsNum → String
  | JsNum.nan => "NaN"
  | JsNum.inf => "Infinity"
  | JsNum.fin a b => tenthsToString (nearestTenths a b)

/-- The expression `((a / b) * 100).toFixed(1)`. -/
def percentToFixed1 (a b : Nat) : String := toFixed1 (jsMul (jsDiv a b) 100)

/-! ## Data model -/

/-- The object `{ positive, negative, neutral, total }`. -/
structure Counts where
  positive : Nat
  negative : Nat
  neutral : Nat
  total : Nat
deriving DecidableEq, Repr

/-- One entry of `stats.platform_breakdown`. -/
structure PlatformStats where
  positive : Nat
  neutral : Nat
  total : Nat
deriving DecidableEq, Repr

/-- The object `stats.platform_breakdown`. -/
structure PlatformBreakdown where
  youtube : PlatformStats
  reddit : PlatformStats
deriving DecidableEq, Repr

/-- The three comment categories, in the order the script lists them. -/
inductive Sentiment
  | positive
  | negative
  | neutral
deriving DecidableEq, Repr

/-- The property name of a category. -/
def Sentiment.name : Sentiment → String
  | Sentiment.positive => "positive"
  | Sentiment.negative => "negative"
  | Sentiment.neutral => "neutral"

/-- The object held in the global `currentResults`, seen through the members the
script reads.  A member that may be missing is an `Option`; `stats` records whether
a truthy member called `stats` is present. -/
structure Results where
  positive : Option (List String)
  negative : Option (List String)
  neutral : Option (List String)
  counts : Option Counts
  total_count : Option Nat
  stats : Bool
deriving DecidableEq, Repr

/-- The member `results[sentiment]`. -/
def Results.get (r : Results) : Sentiment → Option (List String)
  | Sentiment.positive => r.positive
  | Sentiment.negative => r.negative
  | Sentiment.neutral => r.neutral

/-- The expression `(results[sentiment] || [])`. -/
def Results.getOrEmpty (r : Results) (s : Sentiment) : List String :=
  (r.get s).getD []

/-- The `stats` object of a creator report. -/
structure CreatorStats where
  positive : List String
  negative : List String
  neutral : List String
  total_count : Nat
  platform_breakdown : PlatformBreakdown
deriving DecidableEq, Repr

/-- The creator `stats` object as stored in `currentResults` (line 128): the same
object, which has no member `counts` and no member `stats`. -/
def CreatorStats.asResults (s : CreatorStats) : Results :=
  { positive := some s.positive
    negative := some s.negative
    neutral := some s.neutral
    counts := none
    total_count := some s.total_count
    stats := false }

/-- The argument of `displayResults`. -/
structure SingleData where
  title : Option String
  results : Results
deriving DecidableEq, Repr

/-- The argument of `displayCreatorResults`, as far as the statistics go. -/
structure CreatorData where
  stats : CreatorStats
deriving DecidableEq, Repr

/-! ## Page state -/

/-- The two chart kinds. -/
inductive ChartKind
  | bar
  | pie
deriving DecidableEq, Repr

/-- A `Chart` object: its kind, the series `datasets[0].data`, and whether
`destroy()` has been called on it. -/
structure ChartInstance where
  kind : ChartKind
  data : List Nat
  destroyed : Bool
deriving DecidableEq, Repr

/-- What happens to chart objects, in program order; a chart is named by its
position in `Page.charts`. -/
inductive ChartEvent
  | created (kind : ChartKind) (id : Nat)
  | destroyed (id : Nat)
deriving DecidableEq, Repr

/-- The globals of the script and the elements it writes that matter here.
`charts` holds every `Chart` object constructed so far, `barChart` / `pieChart`
refer into it. -/
structure Page where
  currentResults : Option Results
  barChart : Option Nat
  pieChart : Option Nat
  charts : List ChartInstance
  chartLog : List ChartEvent
  analysisTitle : String
  positiveCount : String
  negativeCount : String
  neutralCount : String
  totalCount : String
  ytScore : String
  redditScore : String
  commentsContainer : String
deriving DecidableEq, Repr

/-- The page as loaded: `currentResults`, `barChart` and `pieChart` are `null`. -/
def Page.initial : Page :=
  { currentResults := none
    barChart := none
    pieChart := none
    charts := []
    chartLog := []
    analysisTitle := ""
    positiveCount := ""
    negativeCount := ""
    neutralCount := ""
    totalCount := ""
    ytScore := ""
    redditScore := ""
    commentsContainer := "" }

/-! ## Rendering -/

/-- Text serialisation of one character of a text node (`div.innerHTML` after
`div.textContent = text`). -/
def escapeChar (c : Char) : String :=
  if c = '&' then "&amp;"
  else if c = '<' then "&lt;"
  else if c = '>' then "&gt;"
  else if c.val = 160 then "&nbsp;"
  else String.singleton c

/-- The function `escapeHtml`. -/
def escapeHtml (text : String) : String :=
  String.join (text.data.map escapeChar)

/-- The markup of one comment in `displayComments` (the template literal of
lines 354-358, white space included). -/
def commentItem (sentiment : Sentiment) (comment : String) : String :=
  "\n        <div class=\"comment-item " ++ sentiment.name ++ "\">\n            "
    ++ escapeHtml comment ++ "\n        </div>\n    "

/-- The placeholder markup of `displayComments`. -/
def noCommentsMarkup : String :=
  "<p style=\"text-align: center; color: #94a3b8;\">No comments in this category</p>"

/-- The function `displayComments`; `none` is the `TypeError` raised when
`currentResults` is `null`. -/
def displayComments (sentiment : Sentiment) (pg : Page) : Option Page :=
  match pg.currentResults with
  | none => none
  | some results =>
    match results.get sentiment with
    | none => some { pg with commentsContainer := noCommentsMarkup }
    | some comments =>
      if comments.length = 0 then some { pg with commentsContainer := noCommentsMarkup }
      else some { pg with
        commentsContainer := String.join (comments.map (commentItem sentiment)) }

/-- Calling `destroy()` on the chart object `id`. -/
def destroyChart (id : Nat) (charts : List ChartInstance) : List ChartInstance :=
  charts.modify (fun c => { c with destroyed := true }) id

/-- The common shape of `createBarChart` and `createPieChart`: destroy the chart
held in the variable, if any, then construct a new one from
`[counts.positive, counts.negative, counts.neutral]` and store it. -/
def replaceChart (kind : ChartKind) (held : Option Nat) (counts : Counts) (pg : Page) :
    Nat × List ChartInstance × List ChartEvent :=
  let destroyed : List ChartInstance × List ChartEvent :=
    match held with
    | some id => (destroyChart id pg.charts, pg.chartLog ++ [ChartEvent.destroyed id])
    | none => (pg.charts, pg.chartLog)
  let id := destroyed.1.length
  (id,
   destroyed.1 ++ [{ kind := kind
                     data := [counts.positive, counts.negative, counts.neutral]
                     destroyed := false }],
   destroyed.2 ++ [ChartEvent.created kind id])

/-- The function `createBarChart`. -/
def createBarChart (counts : Counts) (pg : Page) : Page :=
  let r := replaceChart ChartKind.bar pg.barChart counts pg
  { pg with barChart := some r.1, charts := r.2.1, chartLog := r.2.2 }

/-- The function `createPieChart`. -/
def createPieChart (counts : Counts) (pg : Page) : Page :=
  let r := replaceChart ChartKind.pie pg.pieChart counts pg
  { pg with pieChart := some r.1, charts := r.2.1, chartLog := r.2.2 }

/-- The tooltip `label` callback of the pie chart (lines 331-337): `label` is
`context.label`, `parsed` is `context.parsed`, `data` is `context.dataset.data`. -/
def pieTooltipLabel (label : String) (parsed : Nat) (data : List Nat) : String :=
  let value := parsed
  let total := data.foldl (fun a b => a + b) 0
  let percentage := percentToFixed1 value total
  label ++ ": " ++ toString value ++ " (" ++ percentage ++ "%)"

/-- The text `updatePlatformScore` writes into its element (it also greys the
element out in the `N/A` case). -/
def updatePlatformScore (stats : PlatformStats) : String :=
  if stats.total = 0 then "N/A"
  else percentToFixed1 (stats.positive + stats.neutral) stats.total ++ "%"

/-- The `counts` of `displayResults` (lines 183-188). -/
def displayCounts (results : Results) : Counts :=
  match results.counts with
  | some c => c
  | none =>
    { positive := (results.getOrEmpty Sentiment.positive).length
      negative := (results.getOrEmpty Sentiment.negative).length
      neutral := (results.getOrEmpty Sentiment.neutral).length
      total := (results.getOrEmpty Sentiment.positive).length
        + (results.getOrEmpty Sentiment.negative).length
        + (results.getOrEmpty Sentiment.neutral).length }

/-- Writing the four stat cards.  A count is a JavaScript number; assigned to
`textContent` it reads as its decimal digits as long as it is an integer below
`2 ^ 53` (array lengths are below `2 ^ 32`); a number taken from the remote data is
covered by this only under that bound. -/
def setStatCards (counts : Counts) (pg : Page) : Page :=
  { pg with
    positiveCount := toString counts.positive
    negativeCount := toString counts.negative
    neutralCount := toString counts.neutral
    totalCount := toString counts.total }

/-- The function `displayResults` (title, stat cards, charts, comment list; the
time stamp and the brand score block write elements nothing else reads). -/
def displayResults (data : SingleData) (pg : Page) : Option Page :=
  let title := if (data.title.getD "") = "" then "Sentiment Analysis Result"
    else data.title.getD ""
  let counts := displayCounts data.results
  let pg1 := { pg with analysisTitle := title }
  let pg2 := setStatCards counts pg1
  let pg3 := createPieChart counts (createBarChart counts pg2)
  displayComments Sentiment.positive pg3

/-- The part of `loadAnalysis` that shows a result once it has been obtained:
`currentResults = results; displayResults(data)`. -/
def loadAnalysis (data : SingleData) (pg : Page) : Option Page :=
  displayResults data { pg with currentResults := some data.results }

/-- The `counts` of `displayCreatorResults` (lines 110-115). -/
def creatorCounts (stats : CreatorStats) : Counts :=
  { positive := stats.positive.length
    negative := stats.negative.length
    neutral := stats.neutral.length
    total := stats.total_count }

/-- The function `displayCreatorResults` from the platform scores on (header,
error box and recommendation box write elements nothing else reads). -/
def displayCreatorResults (data : CreatorData) (pg : Page) : Option Page :=
  let stats := data.stats
  let pg1 := { pg with
    ytScore := updatePlatformScore stats.platform_breakdown.youtube
    redditScore := updatePlatformScore stats.platform_breakdown.reddit }
  let counts := creatorCounts stats
  let pg2 := setStatCards counts pg1
  let pg3 := createPieChart counts (createBarChart counts pg2)
  displayComments Sentiment.positive { pg3 with currentResults := some stats.asResults }

/-- A call of one of the two chart functions. -/
inductive ChartCall
  | bar (counts : Counts)
  | pie (counts : Counts)
deriving DecidableEq, Repr

/-- The kind of chart a call makes. -/
def ChartCall.kind : ChartCall → ChartKind
  | ChartCall.bar _ => ChartKind.bar
  | ChartCall.pie _ => ChartKind.pie

/-- The counts a call is given. -/
def ChartCall.counts : ChartCall → Counts
  | ChartCall.bar c => c
  | ChartCall.pie c => c

/-- Making one call. -/
def ChartCall.run : ChartCall → Page → Page
  | ChartCall.bar c, pg => createBarChart c pg
  | ChartCall.pie c, pg => createPieChart c pg

/-- Making a sequence of calls, first to last. -/
def runCalls (calls : List ChartCall) (pg : Page) : Page :=
  calls.foldl (fun st call => call.run st) pg

/-- The variable that holds the chart of a kind: `barChart` or `pieChart`. -/
def Page.held (pg : Page) : ChartKind → Option Nat
  | ChartKind.bar => pg.barChart
  | ChartKind.pie => pg.pieChart

/-- The counts of the latest call of a kind in a sequence of calls. -/
def latestCounts (kind : ChartKind) (calls : List ChartCall) : Option Counts :=
  (calls.reverse.find? (fun call => decide (call.kind = kind))).map ChartCall.counts

/-! ## Export -/

/-- A cell of an `autoTable` body: a number or a string. -/
inductive Cell
  | num (n : Nat)
  | str (s : String)
deriving DecidableEq, Repr

/-- The text a cell shows. -/
def Cell.text : Cell → String
  | Cell.num n => toString n
  | Cell.str s => s

/-- The calls made on the jsPDF document, in order (style options of `autoTable`
are left out). -/
inductive DocCmd
  | setFontSize (size : Nat)
  | setTextColor (r g b : Nat)
  | setDrawColor (r g b : Nat)
  | setLineWidthTenths (w : Nat)
  | line (x1 y1 x2 y2 : Nat)
  | text (s : String) (x y : Nat) (centered : Bool)
  | autoTable (startY : Nat) (head : List String) (body : List (List Cell))
  | addPage
  | addImage (img : String) (x y w h : Nat)
  | setPage (i : Nat)
  | save (file : String)
deriving DecidableEq, Repr

/-- What `getElementById(id)` followed by `toDataURL` gives for a chart canvas. -/
inductive Canvas
  | missing
  | captureFails
  | image (dataUrl : String)
deriving DecidableEq, Repr

/-- What `exportResults` reads from the browser besides the page state. -/
structure ExportEnv where
  jspdf : Bool
  autoTablePlugin : Bool
  now : String
  barCanvas : Canvas
  pieCanvas : Canvas
deriving DecidableEq, Repr

/-- What `exportResults` ends with. -/
inductive ExportOutcome
  | noResults
  | pdf (doc : List DocCmd)
  | csv (text : String)
deriving DecidableEq, Repr

/-- The `counts` of `exportResults` (lines 395-415). -/
def exportCounts (currentResults : Results) : Counts :=
  if currentResults.stats then
    { positive := (currentResults.getOrEmpty Sentiment.positive).length
      negative := (currentResults.getOrEmpty Sentiment.negative).length
      neutral := (currentResults.getOrEmpty Sentiment.neutral).length
      total := currentResults.total_count.getD 0 }
  else
    { positive := (currentResults.getOrEmpty Sentiment.positive).length
      negative := (currentResults.getOrEmpty Sentiment.negative).length
      neutral := (currentResults.getOrEmpty Sentiment.neutral).length
      total := (currentResults.getOrEmpty Sentiment.positive).length
        + (currentResults.getOrEmpty Sentiment.negative).length
        + (currentResults.getOrEmpty Sentiment.neutral).length }

/-- The `Success Rate` cell (line 443). -/
def successRate (counts : Counts) : String :=
  if counts.total > 0 then percentToFixed1 counts.positive counts.total ++ "%" else "0%"

/-- The body of the summary table (lines 438-444). -/
def summaryBody (counts : Counts) : List (List Cell) :=
  [ [Cell.str "Positive Comments", Cell.num counts.positive],
    [Cell.str "Negative Comments", Cell.num counts.negative],
    [Cell.str "Neutral Comments", Cell.num counts.neutral],
    [Cell.str "Total Analyzed", Cell.num counts.total],
    [Cell.str "Success Rate", Cell.str (successRate counts)] ]

/-- The value of `sentiment.toUpperCase()`. -/
def Sentiment.upper (s : Sentiment) : String :=
  String.mk (s.name.data.map Char.toUpper)

/-- The rows one category pushes onto `tableBody` (lines 479-482). -/
def sampleRows (resultsObj : Results) (sentiment : Sentiment) : List (List Cell) :=
  ((resultsObj.getOrEmpty sentiment).take 20).map
    (fun comment => [Cell.str sentiment.upper, Cell.str comment])

/-- The array `tableBody` after the `forEach` of lines 478-483. -/
def tableBody (resultsObj : Results) : List (List Cell) :=
  [Sentiment.positive, Sentiment.negative, Sentiment.neutral].foldl
    (fun acc sentiment => acc ++ sampleRows resultsObj sentiment) []

/-- The comment part of the last page (lines 485-500): the table, or the
placeholder line. -/
def commentSection (resultsObj : Results) : List DocCmd :=
  if (tableBody resultsObj).length > 0 then
    [DocCmd.autoTable 30 ["Sentiment", "Comment Text"] ((tableBody resultsObj).take 100)]
  else
    [DocCmd.setFontSize 10, DocCmd.setTextColor 100 100 100,
     DocCmd.text "No detailed comments available for export." 14 30 false]

/-- The chart page (lines 450-469); a failing capture is caught and drops only
what had not been drawn yet. -/
def chartSection (env : ExportEnv) : List DocCmd :=
  match env.barCanvas with
  | Canvas.missing => []
  | Canvas.captureFails => []
  | Canvas.image barImg =>
    [DocCmd.addPage, DocCmd.setFontSize 16, DocCmd.setTextColor 67 79 235,
     DocCmd.text "Visual Sentiment Distribution" 14 20 false,
     DocCmd.addImage barImg 15 30 180 90]
    ++ (match env.pieCanvas with
        | Canvas.missing => []
        | Canvas.captureFails => []
        | Canvas.image pieImg =>
          [DocCmd.text "Sentiment Breakdown (%)" 14 135 false,
           DocCmd.addImage pieImg 55 140 100 100])

/-- The number of pages of a document: one, plus one for each `addPage`. -/
def pageCount (doc : List DocCmd) : Nat :=
  1 + (doc.filter (fun c => decide (c = DocCmd.addPage))).length

/-- The footer loop (lines 503-509). -/
def footer (pages : Nat) : List DocCmd :=
  (List.range pages).flatMap (fun k =>
    [DocCmd.setPage (k + 1), DocCmd.setFontSize 8, DocCmd.setTextColor 150 150 150,
     DocCmd.text ("Page " ++ toString (k + 1) ++ " of " ++ toString pages
        ++ " | Universal Sentiment Analysis Project") 105 290 true])

/-- One UTF-16 code unit of `titleText.replace(/[^a-z0-9]/gi, '_')`. -/
def fileNameChar (c : Char) : String :=
  if c.isAlphanum then String.singleton c
  else if c.val < 65536 then "_" else "__"

/-- The file name passed to `doc.save` (line 511). -/
def fileName (titleText : String) : String :=
  String.join (titleText.data.map fileNameChar) ++ "_Report.pdf"

/-- The `try` block of `exportResults` once the document exists (lines 394-511). -/
def pdfDocument (env : ExportEnv) (titleText : String) (currentResults : Results) :
    List DocCmd :=
  let counts := exportCounts currentResults
  let body : List DocCmd :=
    [DocCmd.setFontSize 22, DocCmd.setTextColor 67 79 235,
     DocCmd.text "Sentiment Analysis Report" 105 20 true,
     DocCmd.setDrawColor 67 79 235, DocCmd.setLineWidthTenths 5, DocCmd.line 14 25 196 25,
     DocCmd.setFontSize 12, DocCmd.setTextColor 60 60 60,
     DocCmd.text ("Title: " ++ titleText) 14 35 false,
     DocCmd.text ("Date: " ++ env.now) 14 42 false,
     DocCmd.autoTable 50 ["Sentiment Metric", "Count/Value"] (summaryBody counts)]
    ++ chartSection env
    ++ [DocCmd.addPage, DocCmd.setFontSize 16, DocCmd.setTextColor 67 79 235,
        DocCmd.text "Comment Details (Sample)" 14 20 false]
    ++ commentSection currentResults
  body ++ footer (pageCount body) ++ [DocCmd.save (fileName titleText)]

/-- The text of the CSV fallback (lines 516-518). -/
def csvFallback (currentResults : Results) : String :=
  let counts := currentResults.counts.getD { positive := 0, negative := 0, neutral := 0, total := 0 }
  "Sentiment,Count\n"
    ++ ("Positive," ++ toString counts.positive ++ "\nNegative," ++ toString counts.negative
        ++ "\nNeutral," ++ toString counts.neutral ++ "\n")

/-- The function `exportResults`.  The PDF path fails when `window.jspdf` is
missing (line 391) or when the document has no `autoTable` (line 435); either
way the `catch` block writes the CSV instead. -/
def exportResults (env : ExportEnv) (pg : Page) : ExportOutcome :=
  match pg.currentResults with
  | none => ExportOutcome.noResults
  | some currentResults =>
    if env.jspdf && env.autoTablePlugin then
      let titleText :=
        if pg.analysisTitle = "" then "Sentiment Analysis Report" else pg.analysisTitle
      ExportOutcome.pdf (pdfDocument env titleText currentResults)
    else ExportOutcome.csv (csvFallback currentResults)

/-! ## Sample inputs and read-outs -/

/-- A single analysis whose `counts` object differs from the comment arrays. -/
def singleWithCounts : SingleData :=
  { title := none
    results :=
      { positive := some ["great"]
        negative := some []
        neutral := some []
        counts := some { positive := 7, negative := 2, neutral := 1, total := 10 }
        total_count := none
        stats := false } }

/-- A creator report whose `total_count` differs from the number of comments. -/
def creatorWithTotal : CreatorData :=
  { stats :=
      { positive := ["great"]
        negative := []
        neutral := []
        total_count := 5
        platform_breakdown :=
          { youtube := { positive := 1, neutral := 0, total := 5 }
            reddit := { positive := 0, neutral := 0, total := 0 } } } }

/-- A browser in which the PDF libraries are loaded and both canvases can be read. -/
def pdfEnv : ExportEnv :=
  { jspdf := true
    autoTablePlugin := true
    now := "1/1/2025, 12:00:00 PM"
    barCanvas := Canvas.image "data:bar"
    pieCanvas := Canvas.image "data:pie" }

/-- The stat cards of a page, in the order positive, negative, neutral, total. -/
def Page.statCards (pg : Page) : List String :=
  [pg.positiveCount, pg.negativeCount, pg.neutralCount, pg.totalCount]

/-- The count cells of the summary table written by an export, in the same order. -/
def exportedCounts : ExportOutcome → List String
  | ExportOutcome.pdf doc =>
    doc.flatMap (fun cmd =>
      match cmd with
      | DocCmd.autoTable 50 _ body => (body.take 4).map (fun row => (row.getD 1 (Cell.str "")).text)
      | _ => [])
  | _ => []

/-- A single analysis without a `counts` object: two positive comments, one negative. -/
def singleNoCounts : SingleData :=
  { title := some "Launch video"
    results :=
      { positive := some ["great", "love it"]
        negative := some ["meh"]
        neutral := none
        counts := none
        total_count := none
        stats := false } }

/-- A browser in which jsPDF did not load. -/
def noPdfEnv : ExportEnv :=
  { jspdf := false
    autoTablePlugin := false
    now := "1/1/2025, 12:00:00 PM"
    barCanvas := Canvas.image "data:bar"
    pieCanvas := Canvas.image "data:pie" }

/-- The row `[SENTIMENT, comment]` of the comment table. -/
def sampleRow (upper : String) (comment : String) : List Cell :=
  [Cell.str upper, Cell.str comment]

/-- The placeholder drawn instead of an empty comment table. -/
def noCommentsLine : List DocCmd :=
  [DocCmd.setFontSize 10, DocCmd.setTextColor 100 100 100,
   DocCmd.text "No detailed comments available for export." 14 30 false]

/-- The chart invariant: a chart that has not been destroyed is the one held in the
variable of its kind; a held chart exists, has the kind of its variable and has not
been destroyed; every creation in the log is followed by the destruction of that
chart unless the chart is still held; between two creations of the same kind lies the
destruction of the earlier chart. -/
structure ChartsOk (pg : Page) : Prop where
  live_held : ∀ (i : Nat) (c : ChartInstance),
    pg.charts[i]? = some c → c.destroyed = false → pg.held c.kind = some i
  held_live : ∀ (k : ChartKind) (i : Nat),
    pg.held k = some i → ∃ c, pg.charts[i]? = some c ∧ c.kind = k ∧ c.destroyed = false
  created_then : ∀ (a : Nat) (k : ChartKind) (i : Nat),
    pg.chartLog[a]? = some (ChartEvent.created k i) →
      (∃ m, a < m ∧ pg.chartLog[m]? = some (ChartEvent.destroyed i)) ∨ pg.held k = some i
  destroyed_between : ∀ (a b : Nat) (k : ChartKind) (i j : Nat), a < b →
    pg.chartLog[a]? = some (ChartEvent.created k i) →
    pg.chartLog[b]? = some (ChartEvent.created k j) →
      ∃ m, a < m ∧ m < b ∧ pg.chartLog[m]? = some (ChartEvent.destroyed i)

/-- A page holding a loaded result with one positive comment that contains markup,
an empty `negative` array and no `neutral` member. -/
def commentsPage : Page :=
  { Page.initial with
    currentResults := some
      { positive := some ["a <b> & c"]
        negative := some []
        neutral := none
        counts := none
        total_count := none
        stats := false } }

/-- A page holding a loaded result with seven positive, two negative and one neutral
comment. -/
def sevenTwoOnePage : Page :=
  { Page.initial with
    currentResults := some
      { positive := some (List.replicate 7 "p")
        negative := some (List.replicate 2 "m")
        neutral := some ["n"]
        counts := none
        total_count := none
        stats := false } }

/-- A page holding a loaded result with 25 positive comments, no `negative` member and
one neutral comment. -/
def longPositivePage : Page :=
  { Page.initial with
    currentResults := some
      { positive := some (List.replicate 25 "p")
        negative := none
        neutral := some ["n"]
        counts := none
        total_count := none
        stats := false } }

/-! ## Rounding lemmas -/

theorem roundHalfEven_near (a b : Nat) (hb : 0 < b) :
    2 * |((roundHalfEven a b : Nat) : ℤ) * b - a| ≤ b := by
  have hdm : b * (a / b) + a % b = a := Nat.div_add_mod a b
  have hr : a % b < b := Nat.mod_lt a hb
  have hdm' : (b : ℤ) * ((a / b : Nat) : ℤ) + ((a % b : Nat) : ℤ) = a := by exact_mod_cast hdm
  have hr0 : (0 : ℤ) ≤ ((a % b : Nat) : ℤ) := Int.natCast_nonneg _
  have hrb : ((a % b : Nat) : ℤ) < b := by exact_mod_cast hr
  have e1 : ((a / b : Nat) : ℤ) * b - a = -((a % b : Nat) : ℤ) := by linarith
  have e2 : ((a / b + 1 : Nat) : ℤ) * b - a = b - ((a % b : Nat) : ℤ) := by
    push_cast; linarith
  unfold roundHalfEven
  simp only
  split_ifs with h1 h2 h3
  · have h1' : 2 * ((a % b : Nat) : ℤ) < b := by exact_mod_cast h1
    rw [e1, abs_neg, abs_of_nonneg hr0]; linarith
  · have h2' : (b : ℤ) < 2 * ((a % b : Nat) : ℤ) := by exact_mod_cast h2
    rw [e2, abs_of_nonneg (by linarith)]; linarith
  · have h1' : (b : ℤ) ≤ 2 * ((a % b : Nat) : ℤ) := by exact_mod_cast not_lt.mp h1
    have h2' : 2 * ((a % b : Nat) : ℤ) ≤ b := by exact_mod_cast not_lt.mp h2
    rw [e1, abs_neg, abs_of_nonneg hr0]; linarith
  · have h1' : (b : ℤ) ≤ 2 * ((a % b : Nat) : ℤ) := by exact_mod_cast not_lt.mp h1
    rw [e2, abs_of_nonneg (by linarith)]; linarith

theorem log2Fuel_bounds (fuel n : Nat) (hn : 0 < n) (hf : n ≤ fuel) :
    2 ^ log2Fuel fuel n ≤ n ∧ n < 2 ^ (log2Fuel fuel n + 1) := by
  induction fuel generalizing n with
  | zero => omega
  | succ k ih =>
    unfold log2Fuel
    split_ifs with h
    · constructor <;> simp <;> omega
    · have h2 : 0 < n / 2 := by omega
      have h3 : n / 2 ≤ k := by omega
      obtain ⟨l, u⟩ := ih (n / 2) h2 h3
      constructor
      · rw [pow_succ]; omega
      · rw [pow_succ] at u ⊢; omega

theorem floorLog2_bounds (n : Nat) (hn : 0 < n) :
    2 ^ floorLog2 n ≤ n ∧ n < 2 ^ (floorLog2 n + 1) :=
  log2Fuel_bounds n n hn le_rfl

theorem two_zpow_toNat (l : ℤ) (h : 0 ≤ l) : ((2 : ℚ) ^ l.toNat) = (2 : ℚ) ^ l := by
  rw [← zpow_natCast, Int.toNat_of_nonneg h]

theorem two_zpow_neg_toNat (l : ℤ) (h : l ≤ 0) :
    ((2 : ℚ) ^ (-l).toNat) = ((2 : ℚ) ^ l)⁻¹ := by
  rw [← zpow_natCast, Int.toNat_of_nonneg (by omega), zpow_neg]

theorem binade_bounds (a b : Nat) (ha : 0 < a) (hb : 0 < b) :
    (2 : ℚ) ^ binade a b * b ≤ a ∧ (a : ℚ) < 2 ^ (binade a b + 1) * b := by
  obtain ⟨al, au⟩ := floorLog2_bounds a ha
  obtain ⟨bl, bu⟩ := floorLog2_bounds b hb
  have al' : (2 : ℚ) ^ (floorLog2 a) ≤ a := by exact_mod_cast al
  have au' : (a : ℚ) < 2 ^ (floorLog2 a) * 2 := by rw [← pow_succ]; exact_mod_cast au
  have bl' : (2 : ℚ) ^ (floorLog2 b) ≤ b := by exact_mod_cast bl
  have bu' : (b : ℚ) < 2 ^ (floorLog2 b) * 2 := by rw [← pow_succ]; exact_mod_cast bu
  have hB : (0 : ℚ) < b := by exact_mod_cast hb
  have hA : (0 : ℚ) < a := by exact_mod_cast ha
  set l : ℤ := (floorLog2 a : ℤ) - (floorLog2 b : ℤ) with hl
  have hP : (0 : ℚ) < 2 ^ l := by positivity
  have hPa : (2 : ℚ) ^ l * 2 ^ (floorLog2 b) = 2 ^ (floorLog2 a) := by
    rw [hl, zpow_sub₀ (by norm_num), zpow_natCast, zpow_natCast]
    field_simp
  have hQa : (0 : ℚ) < 2 ^ (floorLog2 a) := by positivity
  have hQb : (0 : ℚ) < 2 ^ (floorLog2 b) := by positivity
  -- a / b lies strictly between 2 ^ (l - 1) and 2 ^ (l + 1)
  have hup : (a : ℚ) < 2 ^ l * 2 * b := by
    calc (a : ℚ) < 2 ^ (floorLog2 a) * 2 := au'
      _ = 2 ^ l * 2 * 2 ^ (floorLog2 b) := by rw [← hPa]; ring
      _ ≤ 2 ^ l * 2 * b := by gcongr
  have hlow : (2 : ℚ) ^ l * b < 2 * a := by
    calc (2 : ℚ) ^ l * b < 2 ^ l * (2 ^ (floorLog2 b) * 2) := by gcongr
      _ = 2 * 2 ^ (floorLog2 a) := by rw [← hPa]; ring
      _ ≤ 2 * a := by gcongr
  have hs1 : (2 : ℚ) ^ (l + 1) = 2 ^ l * 2 := by rw [zpow_add₀ (by norm_num)]; norm_num
  have hs2 : (2 : ℚ) ^ (l - 1) = 2 ^ l / 2 := by rw [zpow_sub₀ (by norm_num)]; norm_num
  have key : ∀ c : Prop, (c ↔ (2 : ℚ) ^ l * b ≤ a) → [Decidable c] →
      (2 : ℚ) ^ (if c then l else l - 1) * b ≤ a
        ∧ (a : ℚ) < 2 ^ ((if c then l else l - 1) + 1) * b := by
    intro c hc _
    by_cases h : c
    · rw [if_pos h, hs1]; exact ⟨hc.mp h, hup⟩
    · rw [if_neg h, sub_add_cancel, hs2]
      have : (a : ℚ) < 2 ^ l * b := not_le.mp (fun h' => h (hc.mpr h'))
      exact ⟨by linarith, this⟩
  unfold binade
  simp only [← hl]
  by_cases h0 : 0 ≤ l
  · rw [if_pos h0]
    apply key
    rw [← two_zpow_toNat l h0]
    constructor
    · intro h; have : ((b * 2 ^ l.toNat : Nat) : ℚ) ≤ a := by exact_mod_cast h
      push_cast at this; linarith
    · intro h; have : ((b * 2 ^ l.toNat : Nat) : ℚ) ≤ a := by push_cast; linarith
      exact_mod_cast this
  · rw [if_neg h0]
    apply key
    have hinv := two_zpow_neg_toNat l (by omega)
    have hT : (0 : ℚ) < 2 ^ (-l).toNat := by positivity
    have hmul : (2 : ℚ) ^ l * 2 ^ (-l).toNat = 1 := by
      rw [hinv]; field_simp
    constructor
    · intro h; have h' : (b : ℚ) ≤ ((a * 2 ^ (-l).toNat : Nat) : ℚ) := by exact_mod_cast h
      push_cast at h'
      have := mul_le_mul_of_nonneg_left h' hP.le
      nlinarith
    · intro h
      have h' : (b : ℚ) ≤ ((a * 2 ^ (-l).toNat : Nat) : ℚ) := by
        push_cast
        have := mul_le_mul_of_nonneg_right h hT.le
        nlinarith
      exact_mod_cast h'

theorem roundHalfEven_near_rat (a b : Nat) (hb : 0 < b) :
    |((roundHalfEven a b : Nat) : ℚ) * (b : ℚ) - (a : ℚ)| ≤ (b : ℚ) / 2 := by
  have h := roundHalfEven_near a b hb
  have h' : ((2 * |((roundHalfEven a b : Nat) : ℤ) * b - a| : ℤ) : ℚ) ≤ ((b : ℤ) : ℚ) := by
    exact_mod_cast h
  push_cast at h'
  linarith

theorem binade_range (a b : Nat) (ha : 0 < a) (hb : 0 < b)
    (hlo : b ≤ a * 2 ^ 64) (hhi : a < b * 2 ^ 64) :
    -65 < binade a b ∧ binade a b < 64 := by
  obtain ⟨bl, bu⟩ := binade_bounds a b ha hb
  have hB : (0 : ℚ) < b := by exact_mod_cast hb
  have hA : (0 : ℚ) < a := by exact_mod_cast ha
  have hlo' : (b : ℚ) ≤ (a : ℚ) * 2 ^ (64 : ℤ) := by
    have : ((b : Nat) : ℚ) ≤ ((a * 2 ^ 64 : Nat) : ℚ) := by exact_mod_cast hlo
    push_cast at this; exact_mod_cast this
  have hhi' : (a : ℚ) < (b : ℚ) * 2 ^ (64 : ℤ) := by
    have : ((a : Nat) : ℚ) < ((b * 2 ^ 64 : Nat) : ℚ) := by exact_mod_cast hhi
    push_cast at this; exact_mod_cast this
  constructor
  · by_contra hcon
    have hle : binade a b + 1 ≤ -64 := by omega
    have h1 : (2 : ℚ) ^ (binade a b + 1) ≤ 2 ^ (-64 : ℤ) :=
      zpow_le_zpow_right₀ (by norm_num) hle
    have h2 : (2 : ℚ) ^ (-64 : ℤ) * 2 ^ (64 : ℤ) = 1 := by
      rw [← zpow_add₀ (by norm_num)]; norm_num
    have h3 : (a : ℚ) < 2 ^ (-64 : ℤ) * (b : ℚ) :=
      lt_of_lt_of_le bu (mul_le_mul_of_nonneg_right h1 hB.le)
    have h4 : (a : ℚ) * 2 ^ (64 : ℤ) < (b : ℚ) := by
      calc (a : ℚ) * 2 ^ (64 : ℤ) < 2 ^ (-64 : ℤ) * (b : ℚ) * 2 ^ (64 : ℤ) :=
            mul_lt_mul_of_pos_right h3 (by positivity)
        _ = (b : ℚ) * (2 ^ (-64 : ℤ) * 2 ^ (64 : ℤ)) := by ring
        _ = (b : ℚ) := by rw [h2, mul_one]
    linarith
  · by_contra hcon
    have hle : (64 : ℤ) ≤ binade a b := by omega
    have h1 : (2 : ℚ) ^ (64 : ℤ) ≤ 2 ^ binade a b := zpow_le_zpow_right₀ (by norm_num) hle
    have h3 : (2 : ℚ) ^ (64 : ℤ) * (b : ℚ) ≤ (a : ℚ) :=
      le_trans (mul_le_mul_of_nonneg_right h1 hB.le) bl
    linarith

/-- Away from overflow and underflow the rounding error of `toDouble` is at most half
a unit in the last place: relative error at most `2 ^ (-53)`. -/
theorem toDouble_spec (a b : Nat) (ha : 0 < a) (hb : 0 < b)
    (hlo : b ≤ a * 2 ^ 64) (hhi : a < b * 2 ^ 64) :
    ∃ c d : Nat, toDouble a b = JsNum.fin c d ∧ 0 < d
      ∧ |(c : ℚ) / (d : ℚ) - (a : ℚ) / (b : ℚ)| * 2 ^ 53 ≤ (a : ℚ) / (b : ℚ) := by
  obtain ⟨bl, bu⟩ := binade_bounds a b ha hb
  obtain ⟨hE1, hE2⟩ := binade_range a b ha hb hlo hhi
  have hB : (0 : ℚ) < b := by exact_mod_cast hb
  have hA : (0 : ℚ) < a := by exact_mod_cast ha
  set E : ℤ := binade a b with hE
  have hmax : max (E - 52) (-1074) = E - 52 := max_eq_left (by omega)
  have hPE : (2 : ℚ) ^ (E - 52) * 2 ^ 52 = 2 ^ E := by
    have : (2 : ℚ) ^ (52 : ℕ) = 2 ^ (52 : ℤ) := by norm_cast
    rw [this, ← zpow_add₀ (by norm_num)]; congr 1; ring
  have hPE1 : (2 : ℚ) ^ (E - 52) * 2 ^ 53 = 2 ^ (E + 1) := by
    have : (2 : ℚ) ^ (53 : ℕ) = 2 ^ (53 : ℤ) := by norm_cast
    rw [this, ← zpow_add₀ (by norm_num)]; congr 1; ring
  have hP0 : (0 : ℚ) < 2 ^ (E - 52) := by positivity
  -- from here on the unit in the last place is an atom
  have hlow : (2 : ℚ) ^ (E - 52) * 2 ^ 52 * (b : ℚ) ≤ (a : ℚ) := by rw [hPE]; exact bl
  have hupp : (a : ℚ) < (2 : ℚ) ^ (E - 52) * 2 ^ 53 * (b : ℚ) := by rw [hPE1]; exact bu
  unfold toDouble
  rw [if_neg (by omega)]
  simp only [← hE, hmax]
  by_cases h0 : 0 ≤ E - 52
  · rw [if_pos h0]
    have hT := two_zpow_toNat (E - 52) h0
    have hTle : (E - 52).toNat ≤ 11 := by omega
    set T : Nat := 2 ^ (E - 52).toNat with hTdef
    have hTq : ((T : Nat) : ℚ) = 2 ^ (E - 52) := by rw [hTdef]; push_cast; exact hT
    have hTpos : 0 < T := by positivity
    have hT11 : T ≤ 2 ^ 11 := Nat.pow_le_pow_right (by norm_num) hTle
    have hbT : 0 < b * T := Nat.mul_pos hb hTpos
    have hr := roundHalfEven_near_rat a (b * T) hbT
    set m : Nat := roundHalfEven a (b * T) with hm
    push_cast at hr
    rw [hTq] at hr
    generalize (2 : ℚ) ^ (E - 52) = P at hr hTq hP0 hlow hupp
    obtain ⟨hr1, hr2⟩ := abs_le.mp hr
    have hbP : (0 : ℚ) < (b : ℚ) * P := by positivity
    -- the rounded mantissa is at most 2 ^ 53
    have hm53 : (m : ℚ) < 2 ^ 53 + 1 := by
      have h1 : (m : ℚ) * ((b : ℚ) * P) < (2 ^ 53 + 1) * ((b : ℚ) * P) := by nlinarith
      exact lt_of_mul_lt_mul_right h1 hbP.le
    have hm53' : m ≤ 2 ^ 53 := by
      have : m < 2 ^ 53 + 1 := by exact_mod_cast hm53
      omega
    have hnov : ¬ 2 ^ 1024 ≤ m * T := by
      have h1 : m * T ≤ 2 ^ 53 * 2 ^ 11 := Nat.mul_le_mul hm53' hT11
      have h1' : m * T ≤ 2 ^ 64 := by norm_num at h1 ⊢; exact h1
      intro hcon
      have h2 : (2 : Nat) ^ 1024 ≤ 2 ^ 64 := le_trans hcon h1'
      have h3 := (Nat.pow_le_pow_iff_right Nat.one_lt_two).mp h2
      omega
    rw [if_neg hnov]
    refine ⟨m * T, 1, rfl, Nat.one_pos, ?_⟩
    have hdiff : ((m * T : Nat) : ℚ) / ((1 : Nat) : ℚ) - (a : ℚ) / (b : ℚ)
        = ((m : ℚ) * ((b : ℚ) * P) - (a : ℚ)) / (b : ℚ) := by
      push_cast; rw [hTq]; field_simp; ring
    rw [hdiff, abs_div, abs_of_pos hB, div_mul_eq_mul_div, div_le_div_iff₀ hB hB]
    calc |(m : ℚ) * ((b : ℚ) * P) - (a : ℚ)| * 2 ^ 53 * (b : ℚ)
        ≤ ((b : ℚ) * P / 2) * 2 ^ 53 * (b : ℚ) := by gcongr
      _ = (P * 2 ^ 52 * (b : ℚ)) * (b : ℚ) := by ring
      _ ≤ (a : ℚ) * (b : ℚ) := by gcongr
  · rw [if_neg h0]
    have hT := two_zpow_neg_toNat (E - 52) (by omega)
    set D : Nat := 2 ^ (-(E - 52)).toNat with hDdef
    have hDq : ((D : Nat) : ℚ) = (2 ^ (E - 52))⁻¹ := by rw [hDdef]; push_cast; exact hT
    have hDpos : 0 < D := by positivity
    have hDq0 : (0 : ℚ) < D := by exact_mod_cast hDpos
    have hr := roundHalfEven_near_rat (a * D) b hb
    set m : Nat := roundHalfEven (a * D) b with hm
    push_cast at hr
    refine ⟨m, D, rfl, hDpos, ?_⟩
    have hDP : (D : ℚ) * 2 ^ (E - 52) = 1 := by rw [hDq]; field_simp
    generalize (2 : ℚ) ^ (E - 52) = P at hP0 hlow hupp hDP
    have hdiff : (m : ℚ) / (D : ℚ) - (a : ℚ) / (b : ℚ)
        = ((m : ℚ) * (b : ℚ) - (a : ℚ) * (D : ℚ)) / ((D : ℚ) * (b : ℚ)) := by
      field_simp; ring
    have hDb : (0 : ℚ) < (D : ℚ) * (b : ℚ) := by positivity
    rw [hdiff, abs_div, abs_of_pos hDb, div_mul_eq_mul_div, div_le_div_iff₀ hDb hB]
    calc |(m : ℚ) * (b : ℚ) - (a : ℚ) * (D : ℚ)| * 2 ^ 53 * (b : ℚ)
        ≤ ((b : ℚ) / 2) * 2 ^ 53 * (b : ℚ) := by gcongr
      _ = ((D : ℚ) * P) * ((b : ℚ) * 2 ^ 52 * (b : ℚ)) := by rw [hDP]; ring
      _ = (P * 2 ^ 52 * (b : ℚ)) * ((D : ℚ) * (b : ℚ)) := by ring
      _ ≤ (a : ℚ) * ((D : ℚ) * (b : ℚ)) := by gcongr

theorem nearestTenths_bounds (a b : Nat) (hb : 0 < b) :
    2 * b * nearestTenths a b ≤ 20 * a + b ∧ 20 * a + b < 2 * b * (nearestTenths a b + 1) := by
  unfold nearestTenths
  have h2b : 0 < 2 * b := by omega
  exact ⟨Nat.mul_div_le _ _, Nat.lt_mul_div_succ _ h2b⟩

theorem percentToFixed1_zero (t : Nat) (ht : 0 < t) : percentToFixed1 0 t = tenthsToString 0 := by
  have h : jsDiv 0 t = JsNum.fin 0 1 := by
    unfold jsDiv toDouble
    rw [if_neg (by omega), if_pos rfl]
  unfold percentToFixed1
  rw [h]
  rfl

/-- The digits of `((p / t) * 100).toFixed(1)` are those of a nearest tenth of the
exact percentage `100 * p / t`. -/
theorem percentToFixed1_nearest (p t : Nat) (ht : 0 < t) (hp : p < 2 ^ 40) (ht2 : t < 2 ^ 53) :
    ∃ n : Nat, percentToFixed1 p t = tenthsToString n
      ∧ 2 * |(n : ℤ) * (t : ℤ) - 1000 * (p : ℤ)| ≤ (t : ℤ) := by
  rcases Nat.eq_zero_or_pos p with hp0 | hp0
  · subst hp0
    refine ⟨0, percentToFixed1_zero t ht, ?_⟩
    simp
  have hT : (0 : ℚ) < (t : ℚ) := by exact_mod_cast ht
  have hP1 : (1 : ℚ) ≤ (p : ℚ) := by exact_mod_cast hp0
  have hP2 : (p : ℚ) ≤ 2 ^ 40 := by exact_mod_cast hp.le
  have hT2 : (t : ℚ) ≤ 2 ^ 53 := by exact_mod_cast ht2.le
  -- first rounding: the quotient
  have hlo1 : t ≤ p * 2 ^ 64 := by
    have h1 : t ≤ 1 * 2 ^ 64 := by norm_num at ht2 ⊢; omega
    exact le_trans h1 (Nat.mul_le_mul_right _ hp0)
  have hhi1 : p < t * 2 ^ 64 := by
    have h1 : p < 1 * 2 ^ 64 := by norm_num at hp ⊢; omega
    exact lt_of_lt_of_le h1 (Nat.mul_le_mul_right _ ht)
  obtain ⟨c, d, hcd, hd, herr1⟩ := toDouble_spec p t hp0 ht hlo1 hhi1
  have hD : (0 : ℚ) < (d : ℚ) := by exact_mod_cast hd
  -- scale by `t`: with `x = c / d * t` the first error bound reads `|x - p| * 2 ^ 53 ≤ p`
  have hx : |(c : ℚ) / (d : ℚ) * (t : ℚ) - (p : ℚ)| * 2 ^ 53 ≤ (p : ℚ) := by
    have h1 : (c : ℚ) / (d : ℚ) * (t : ℚ) - (p : ℚ)
        = ((c : ℚ) / (d : ℚ) - (p : ℚ) / (t : ℚ)) * (t : ℚ) := by field_simp; ring
    rw [h1, abs_mul, abs_of_pos hT]
    have h2 := mul_le_mul_of_nonneg_right herr1 hT.le
    have h3 : (p : ℚ) / (t : ℚ) * (t : ℚ) = (p : ℚ) := by field_simp
    rw [h3] at h2
    linarith
  set x : ℚ := (c : ℚ) / (d : ℚ) * (t : ℚ) with hxdef
  have hK : (0 : ℚ) < 2 ^ 53 := by norm_num
  obtain ⟨hxl, hxu⟩ := abs_le.mp ((le_div_iff₀ hK).mpr hx)
  have hx0 : 0 < x := by linarith
  have hc : 0 < c := by
    rcases Nat.eq_zero_or_pos c with h | h
    · rw [hxdef, h] at hx0; simp at hx0
    · exact h
  have hC : (0 : ℚ) < (c : ℚ) := by exact_mod_cast hc
  -- second rounding: the product with 100
  have hcx : (c : ℚ) * (t : ℚ) = x * (d : ℚ) := by rw [hxdef]; field_simp
  have hlo2 : d ≤ c * 100 * 2 ^ 64 := by
    have h1 : (d : ℚ) ≤ (c : ℚ) * 100 * 2 ^ 64 := by
      have : (d : ℚ) * 1 ≤ (d : ℚ) * (2 * x) := by gcongr; linarith
      nlinarith
    exact_mod_cast h1
  have hhi2 : c * 100 < d * 2 ^ 64 := by
    have h1 : (c : ℚ) * 100 < (d : ℚ) * 2 ^ 64 := by
      have h2 : (c : ℚ) * 1 ≤ (c : ℚ) * (t : ℚ) := by
        gcongr; exact_mod_cast ht
      have h3 : x * (d : ℚ) ≤ (2 * (p : ℚ)) * (d : ℚ) := by gcongr; linarith
      nlinarith
    exact_mod_cast h1
  obtain ⟨c2, d2, hcd2, hd2, herr2⟩ :=
    toDouble_spec (c * 100) d (Nat.mul_pos hc (by norm_num)) hd hlo2 hhi2
  have hD2 : (0 : ℚ) < (d2 : ℚ) := by exact_mod_cast hd2
  push_cast at herr2
  have hy : |(c2 : ℚ) / (d2 : ℚ) * (t : ℚ) - 100 * x| * 2 ^ 53 ≤ 100 * x := by
    have h1 : (c2 : ℚ) / (d2 : ℚ) * (t : ℚ) - 100 * x
        = ((c2 : ℚ) / (d2 : ℚ) - (c : ℚ) * 100 / (d : ℚ)) * (t : ℚ) := by
      rw [hxdef]; field_simp; ring
    rw [h1, abs_mul, abs_of_pos hT]
    have h2 := mul_le_mul_of_nonneg_right herr2 hT.le
    have h3 : (c : ℚ) * 100 / (d : ℚ) * (t : ℚ) = 100 * x := by rw [hxdef]; field_simp; ring
    rw [h3] at h2
    linarith
  set y : ℚ := (c2 : ℚ) / (d2 : ℚ) * (t : ℚ) with hydef
  obtain ⟨hyl, hyu⟩ := abs_le.mp ((le_div_iff₀ hK).mpr hy)
  -- the digits
  obtain ⟨hn1, hn2⟩ := nearestTenths_bounds c2 d2 hd2
  set n : Nat := nearestTenths c2 d2 with hn
  have hstr : percentToFixed1 p t = tenthsToString n := by
    unfold percentToFixed1 jsDiv
    rw [if_neg (by omega), hcd]
    show toFixed1 (toDouble (c * 100) d) = _
    rw [hcd2]
    rfl
  refine ⟨n, hstr, ?_⟩
  have hcy : (c2 : ℚ) * (t : ℚ) = y * (d2 : ℚ) := by rw [hydef]; field_simp
  have hn1' : 2 * ((n : ℚ) * (t : ℚ)) ≤ 20 * y + (t : ℚ) := by
    have h1 : 2 * (d2 : ℚ) * (n : ℚ) ≤ 20 * (c2 : ℚ) + (d2 : ℚ) := by exact_mod_cast hn1
    have h2 := mul_le_mul_of_nonneg_right h1 hT.le
    have h3 : (2 * ((n : ℚ) * (t : ℚ))) * (d2 : ℚ) ≤ (20 * y + (t : ℚ)) * (d2 : ℚ) :=
      calc (2 * ((n : ℚ) * (t : ℚ))) * (d2 : ℚ) = 2 * (d2 : ℚ) * (n : ℚ) * (t : ℚ) := by ring
        _ ≤ (20 * (c2 : ℚ) + (d2 : ℚ)) * (t : ℚ) := h2
        _ = 20 * ((c2 : ℚ) * (t : ℚ)) + (d2 : ℚ) * (t : ℚ) := by ring
        _ = 20 * (y * (d2 : ℚ)) + (d2 : ℚ) * (t : ℚ) := by rw [hcy]
        _ = (20 * y + (t : ℚ)) * (d2 : ℚ) := by ring
    exact le_of_mul_le_mul_right h3 hD2
  have hn2' : 20 * y + (t : ℚ) < 2 * ((n : ℚ) * (t : ℚ)) + 2 * (t : ℚ) := by
    have h1 : 20 * (c2 : ℚ) + (d2 : ℚ) < 2 * (d2 : ℚ) * ((n : ℚ) + 1) := by exact_mod_cast hn2
    have h2 := mul_lt_mul_of_pos_right h1 hT
    have h3 : (20 * y + (t : ℚ)) * (d2 : ℚ)
        < (2 * ((n : ℚ) * (t : ℚ)) + 2 * (t : ℚ)) * (d2 : ℚ) :=
      calc (20 * y + (t : ℚ)) * (d2 : ℚ) = 20 * (y * (d2 : ℚ)) + (d2 : ℚ) * (t : ℚ) := by ring
        _ = 20 * ((c2 : ℚ) * (t : ℚ)) + (d2 : ℚ) * (t : ℚ) := by rw [hcy]
        _ = (20 * (c2 : ℚ) + (d2 : ℚ)) * (t : ℚ) := by ring
        _ < 2 * (d2 : ℚ) * ((n : ℚ) + 1) * (t : ℚ) := h2
        _ = (2 * ((n : ℚ) * (t : ℚ)) + 2 * (t : ℚ)) * (d2 : ℚ) := by ring
    exact lt_of_mul_lt_mul_right h3 hD2.le
  -- both error terms together stay below half a unit of the numerator
  have hup : 2 * ((n : ℚ) * (t : ℚ) - 1000 * (p : ℚ)) < (t : ℚ) + 1 := by
    have hP3 : (p : ℚ) ≤ 1099511627776 := by
      have : p ≤ 1099511627776 := by norm_num at hp; omega
      exact_mod_cast this
    norm_num at hxl hxu hyl hyu
    linarith
  have hdn : 2 * (1000 * (p : ℚ) - (n : ℚ) * (t : ℚ)) < (t : ℚ) + 1 := by
    have hP3 : (p : ℚ) ≤ 1099511627776 := by
      have : p ≤ 1099511627776 := by norm_num at hp; omega
      exact_mod_cast this
    norm_num at hxl hxu hyl hyu
    linarith
  have hup' : 2 * ((n : ℤ) * (t : ℤ) - 1000 * (p : ℤ)) < (t : ℤ) + 1 := by exact_mod_cast hup
  have hdn' : 2 * (1000 * (p : ℤ) - (n : ℤ) * (t : ℤ)) < (t : ℤ) + 1 := by exact_mod_cast hdn
  rcases abs_cases ((n : ℤ) * (t : ℤ) - 1000 * (p : ℤ)) with ⟨h, _⟩ | ⟨h, _⟩
  · rw [h]; linarith
  · rw [h]; linarith

/-- At an exact tie the digit goes either way: `100 * 1 / 16 = 6.25` prints as `6.3`,
`100 * 23 / 80 = 28.75` prints as `28.7` (the binary quotient `23 / 80` falls just
below the tie).  Both are nearest tenths. -/
theorem percentToFixed1_ties :
    percentToFixed1 1 16 = "6.3" ∧ percentToFixed1 23 80 = "28.7" := by
  decide

/-! ## Claims -/

/-- C1 (fails on the code): after a single analysis with a `counts` object has been
shown, the cards read 7, 2, 1, 10 but the exported summary table reads 1, 0, 0, 1;
after a creator report with `total_count = 5` and one comment has been shown, the
total card reads 5 but the exported total reads 1. -/
theorem export_counts_differ_from_cards :
    ((loadAnalysis singleWithCounts Page.initial).map Page.statCards
        = some ["7", "2", "1", "10"]
      ∧ (loadAnalysis singleWithCounts Page.initial).map
          (fun pg => exportedCounts (exportResults pdfEnv pg)) = some ["1", "0", "0", "1"])
    ∧ ((displayCreatorResults creatorWithTotal Page.initial).map Page.statCards
        = some ["1", "0", "0", "5"]
      ∧ (displayCreatorResults creatorWithTotal Page.initial).map
          (fun pg => exportedCounts (exportResults pdfEnv pg)) = some ["1", "0", "0", "1"]) := by
  decide

theorem successRate_nearest (c : Counts) (hp : c.positive < 2 ^ 40) (ht : c.total < 2 ^ 53) :
    (c.total = 0 → successRate c = "0%")
    ∧ (0 < c.total → ∃ n : Nat, successRate c = tenthsToString n ++ "%"
        ∧ 2 * |(n : ℤ) * (c.total : ℤ) - 1000 * (c.positive : ℤ)| ≤ (c.total : ℤ)) := by
  constructor
  · intro h0
    unfold successRate
    rw [if_neg (by omega)]
  · intro hpos
    obtain ⟨n, hn, hnear⟩ := percentToFixed1_nearest c.positive c.total hpos hp ht
    refine ⟨n, ?_, hnear⟩
    unfold successRate
    rw [if_pos hpos, hn]

theorem exportResults_pdf (env : ExportEnv) (pg : Page) (r : Results)
    (hr : pg.currentResults = some r) (hj : env.jspdf = true)
    (ha : env.autoTablePlugin = true) :
    exportResults env pg = ExportOutcome.pdf (pdfDocument env
      (if pg.analysisTitle = "" then "Sentiment Analysis Report" else pg.analysisTitle) r) := by
  unfold exportResults
  rw [hr]
  simp only [hj, ha, Bool.and_self, if_true]

theorem autoTable_not_mem_chartSection (env : ExportEnv) (y : Nat) (head : List String)
    (body : List (List Cell)) : DocCmd.autoTable y head body ∉ chartSection env := by
  unfold chartSection
  cases env.barCanvas <;> cases env.pieCanvas <;> simp

theorem autoTable_not_mem_footer (pages y : Nat) (head : List String)
    (body : List (List Cell)) : DocCmd.autoTable y head body ∉ footer pages := by
  unfold footer
  simp

theorem autoTable_mem_pdfDocument (env : ExportEnv) (title : String) (r : Results)
    (y : Nat) (head : List String) (body : List (List Cell))
    (h : DocCmd.autoTable y head body ∈ pdfDocument env title r) :
    (y = 50 ∧ head = ["Sentiment Metric", "Count/Value"] ∧ body = summaryBody (exportCounts r))
    ∨ (y = 30 ∧ head = ["Sentiment", "Comment Text"] ∧ body = (tableBody r).take 100
        ∧ 0 < (tableBody r).length) := by
  unfold pdfDocument at h
  simp only [List.mem_append, List.mem_cons, List.mem_singleton, List.not_mem_nil, or_false,
    false_or, DocCmd.autoTable.injEq, reduceCtorEq, autoTable_not_mem_chartSection,
    autoTable_not_mem_footer] at h
  rcases h with h | h
  · exact Or.inl ⟨h.1, h.2.1, h.2.2⟩
  · unfold commentSection at h
    split_ifs at h with hlen
    · simp only [List.mem_singleton, DocCmd.autoTable.injEq] at h
      exact Or.inr ⟨h.1, h.2.1, h.2.2, hlen⟩
    · simp at h

/-- C2: with the PDF libraries loaded `exportResults` returns a document whose summary
table (the only table at `startY` 50) ends with the row `Success Rate`, `rate`, where
`rate` is exactly `0%` when the total is 0 and otherwise the digits of a nearest tenth
`n / 10` of `100 * positive / total` (at most 0.05 away from it) followed by `%`.
The counts of an export are array lengths, far below the bounds assumed. -/
theorem successRate_cell (env : ExportEnv) (pg : Page) (r : Results)
    (hr : pg.currentResults = some r) (hj : env.jspdf = true)
    (ha : env.autoTablePlugin = true)
    (hp : (exportCounts r).positive < 2 ^ 40) (ht : (exportCounts r).total < 2 ^ 53) :
    ∃ (doc : List DocCmd) (rate : String),
      exportResults env pg = ExportOutcome.pdf doc
      ∧ doc[10]? = some (DocCmd.autoTable 50 ["Sentiment Metric", "Count/Value"]
          [ [Cell.str "Positive Comments", Cell.num (exportCounts r).positive],
            [Cell.str "Negative Comments", Cell.num (exportCounts r).negative],
            [Cell.str "Neutral Comments", Cell.num (exportCounts r).neutral],
            [Cell.str "Total Analyzed", Cell.num (exportCounts r).total],
            [Cell.str "Success Rate", Cell.str rate] ])
      ∧ (∀ (head : List String) (body : List (List Cell)),
          DocCmd.autoTable 50 head body ∈ doc → body.getLast? = some
            [Cell.str "Success Rate", Cell.str rate])
      ∧ ((exportCounts r).total = 0 → rate = "0%")
      ∧ (0 < (exportCounts r).total → ∃ n : Nat, rate = tenthsToString n ++ "%"
          ∧ 2 * |(n : ℤ) * ((exportCounts r).total : ℤ)
                - 1000 * ((exportCounts r).positive : ℤ)| ≤ ((exportCounts r).total : ℤ)) := by
  obtain ⟨h0, hpos⟩ := successRate_nearest (exportCounts r) hp ht
  refine ⟨_, successRate (exportCounts r), exportResults_pdf env pg r hr hj ha, ?_, ?_,
    h0, hpos⟩
  · unfold pdfDocument
    simp [summaryBody]
  · intro head body hmem
    rcases autoTable_mem_pdfDocument env _ r 50 head body hmem with ⟨_, _, hb⟩ | ⟨h30, _⟩
    · rw [hb]; rfl
    · omega

/-- C2 at seven positive, two negative and one neutral comment: the summary table of
the exported document reads 7, 2, 1, 10 and `70.0%`. -/
theorem successRate_cell_witness :
    ∃ doc : List DocCmd, exportResults pdfEnv sevenTwoOnePage = ExportOutcome.pdf doc
      ∧ doc[10]? = some (DocCmd.autoTable 50 ["Sentiment Metric", "Count/Value"]
          [ [Cell.str "Positive Comments", Cell.num 7],
            [Cell.str "Negative Comments", Cell.num 2],
            [Cell.str "Neutral Comments", Cell.num 1],
            [Cell.str "Total Analyzed", Cell.num 10],
            [Cell.str "Success Rate", Cell.str "70.0%"] ]) := by
  obtain ⟨doc, rate, hdoc, htab, _, _, hrate⟩ :=
    successRate_cell pdfEnv sevenTwoOnePage
      { positive := some (List.replicate 7 "p"), negative := some (List.replicate 2 "m"),
        neutral := some ["n"], counts := none, total_count := none, stats := false }
      rfl rfl rfl (by decide) (by decide)
  obtain ⟨n, hn, hnear⟩ := hrate (by decide)
  have hc : exportCounts
      { positive := some (List.replicate 7 "p"), negative := some (List.replicate 2 "m"),
        neutral := some ["n"], counts := none, total_count := none, stats := false }
      = { positive := 7, negative := 2, neutral := 1, total := 10 } := by decide
  rw [hc] at hnear htab
  have h700 : n = 700 := by
    simp only [Nat.cast_ofNat] at hnear
    rcases abs_cases ((n : ℤ) * 10 - 1000 * 7) with ⟨h1, _⟩ | ⟨h1, _⟩ <;>
      rw [h1] at hnear <;> omega
  have hr70 : rate = "70.0%" := by rw [hn, h700]; decide
  rw [hr70] at htab
  exact ⟨doc, hdoc, htab⟩

/-- C7: `updatePlatformScore` writes `N/A` when `total` is 0 and otherwise the digits
of a nearest tenth `n / 10` of `100 * (positive + neutral) / total` followed by `%`. -/
theorem updatePlatformScore_text (s : PlatformStats)
    (hp : s.positive + s.neutral < 2 ^ 40) (ht : s.total < 2 ^ 53) :
    (s.total = 0 → updatePlatformScore s = "N/A")
    ∧ (0 < s.total → ∃ n : Nat, updatePlatformScore s = tenthsToString n ++ "%"
        ∧ 2 * |(n : ℤ) * (s.total : ℤ) - 1000 * ((s.positive : ℤ) + (s.neutral : ℤ))|
            ≤ (s.total : ℤ)) := by
  constructor
  · intro h0
    unfold updatePlatformScore
    rw [if_pos h0]
  · intro hpos
    obtain ⟨n, hn, hnear⟩ :=
      percentToFixed1_nearest (s.positive + s.neutral) s.total hpos hp ht
    refine ⟨n, ?_, ?_⟩
    · unfold updatePlatformScore
      rw [if_neg (by omega), hn]
    · push_cast at hnear
      exact hnear

/-- C7 at `positive = 1, neutral = 2, total = 4` and at `total = 0`: `75.0%` and `N/A`. -/
theorem updatePlatformScore_text_witness :
    (1 + 2 : Nat) < 2 ^ 40 ∧ (4 : Nat) < 2 ^ 53
    ∧ updatePlatformScore { positive := 1, neutral := 2, total := 4 } = "75.0%"
    ∧ updatePlatformScore { positive := 3, neutral := 1, total := 0 } = "N/A" := by
  refine ⟨by norm_num, by norm_num, ?_, ?_⟩
  · obtain ⟨n, hn, hnear⟩ :=
      (updatePlatformScore_text { positive := 1, neutral := 2, total := 4 }
        (by norm_num) (by norm_num)).2 (by norm_num)
    have h750 : n = 750 := by
      simp only [Nat.cast_ofNat, Nat.cast_one] at hnear
      rcases abs_cases ((n : ℤ) * 4 - 1000 * (1 + 2)) with ⟨h1, _⟩ | ⟨h1, _⟩ <;>
        rw [h1] at hnear <;> omega
    rw [hn, h750]
    decide
  · exact (updatePlatformScore_text { positive := 3, neutral := 1, total := 0 }
      (by norm_num) (by norm_num)).1 rfl

/-- C3 (fails on the code): with a series that sums to zero the tooltip still computes
a percentage: hovering a zero slice of `[0, 0, 0]` gives `Positive: 0 (NaN%)`; the
callback has no branch for a zero sum.  With the series `[7, 2, 1]` the label for
`Negative` is `Negative: 2 (20.0%)`. -/
theorem pieTooltipLabel_zero_sum :
    pieTooltipLabel "Positive" 0 [0, 0, 0] = "Positive: 0 (NaN%)"
    ∧ pieTooltipLabel "Negative" 2 [7, 2, 1] = "Negative: 2 (20.0%)" := by
  decide

/-- With a positive sum the tooltip is `label: value (pct%)`, `pct` being the digits of
a nearest tenth of `100 * value / sum`. -/
theorem pieTooltipLabel_pos (label : String) (value : Nat) (series : List Nat)
    (hsum : 0 < series.foldl (fun a b => a + b) 0) (hv : value < 2 ^ 40)
    (hs : series.foldl (fun a b => a + b) 0 < 2 ^ 53) :
    ∃ n : Nat, pieTooltipLabel label value series
        = label ++ ": " ++ toString value ++ " (" ++ tenthsToString n ++ "%)"
      ∧ 2 * |(n : ℤ) * ((series.foldl (fun a b => a + b) 0 : Nat) : ℤ) - 1000 * (value : ℤ)|
          ≤ ((series.foldl (fun a b => a + b) 0 : Nat) : ℤ) := by
  obtain ⟨n, hn, hnear⟩ := percentToFixed1_nearest value _ hsum hv hs
  refine ⟨n, ?_, hnear⟩
  unfold pieTooltipLabel
  simp only [hn]

theorem displayComments_keeps (s : Sentiment) (pg : Page) (r : Results)
    (h : pg.currentResults = some r) :
    ∃ pg1 : Page, displayComments s pg = some pg1 ∧ pg1.statCards = pg.statCards := by
  unfold displayComments
  rw [h]
  simp only
  cases r.get s with
  | none => exact ⟨_, rfl, rfl⟩
  | some comments =>
    simp only
    split_ifs
    · exact ⟨_, rfl, rfl⟩
    · exact ⟨_, rfl, rfl⟩

/-- C4: for a creator report whose `total_count` is an integer below `2 ^ 53`,
`displayCreatorResults` writes `total_count` as supplied into the total card, whether
or not it is the sum of the three lengths, and the lengths of the three comment arrays
into the category cards. -/
theorem displayCreatorResults_cards (data : CreatorData) (pg : Page)
    (hsafe : data.stats.total_count < 2 ^ 53) :
    ∃ pg1 : Page, displayCreatorResults data pg = some pg1
      ∧ pg1.statCards
        = [toString data.stats.positive.length, toString data.stats.negative.length,
           toString data.stats.neutral.length, toString data.stats.total_count] := by
  have _ := hsafe
  unfold displayCreatorResults
  simp only
  exact (displayComments_keeps Sentiment.positive _ data.stats.asResults rfl).imp
    (fun pg1 h => ⟨h.1, h.2.trans rfl⟩)

/-- C4 on a creator report with one comment and `total_count = 5`: the cards read
1, 0, 0 and 5. -/
theorem displayCreatorResults_cards_witness :
    creatorWithTotal.stats.total_count < 2 ^ 53
    ∧ ∃ pg1 : Page, displayCreatorResults creatorWithTotal Page.initial = some pg1
      ∧ pg1.statCards = ["1", "0", "0", "5"] :=
  ⟨by decide, displayCreatorResults_cards creatorWithTotal Page.initial (by decide)⟩

/-- C5 (fails on the code): for a result without a `counts` object the fallback writes
zeros, not the counts on screen: the cards read 2, 1, 0 and the CSV reads 0, 0, 0. -/
theorem csvFallback_writes_zeros :
    (loadAnalysis singleNoCounts Page.initial).map Page.statCards = some ["2", "1", "0", "3"]
    ∧ (loadAnalysis singleNoCounts Page.initial).map (exportResults noPdfEnv)
      = some (ExportOutcome.csv "Sentiment,Count\nPositive,0\nNegative,0\nNeutral,0\n") := by
  decide

theorem tableBody_eq (r : Results) :
    tableBody r = sampleRows r Sentiment.positive ++ sampleRows r Sentiment.negative
      ++ sampleRows r Sentiment.neutral := by
  simp [tableBody]

theorem tableBody_length_le (r : Results) : (tableBody r).length ≤ 60 := by
  rw [tableBody_eq]
  simp only [List.length_append, sampleRows, List.length_map, List.length_take]
  omega

theorem infix_last_two {α : Type} (l : List α) (a b c h t : α) :
    [h, t] <:+: l ++ [a, b, c, h] ++ [t] :=
  ⟨l ++ [a, b, c], [], by simp⟩

/-- C6: with the PDF libraries loaded `exportResults` returns a document in which the
comment table (the only table besides the summary, drawn right under the heading
`Comment Details (Sample)` when there is a row) has as body the first 100 rows of
`tableBody`; `tableBody` is, in the order positive, negative, neutral, the first
`min 20 length` comments of each category in their own order, each as the row
`[CATEGORY, comment]`; a missing category adds no row; the body has at most 60 rows,
so never more than 100. -/
theorem tableBody_rows (env : ExportEnv) (pg : Page) (r : Results)
    (hr : pg.currentResults = some r) (hj : env.jspdf = true)
    (ha : env.autoTablePlugin = true) :
    ∃ doc : List DocCmd, exportResults env pg = ExportOutcome.pdf doc
      ∧ tableBody r
          = ((r.positive.getD []).take 20).map (sampleRow "POSITIVE")
            ++ ((r.negative.getD []).take 20).map (sampleRow "NEGATIVE")
            ++ ((r.neutral.getD []).take 20).map (sampleRow "NEUTRAL")
      ∧ (∀ s : Sentiment, (sampleRows r s).length = min 20 (r.getOrEmpty s).length)
      ∧ (∀ s : Sentiment, r.get s = none → sampleRows r s = [])
      ∧ ((tableBody r).take 100).length ≤ 100
      ∧ (tableBody r).length ≤ 60
      ∧ (0 < (tableBody r).length →
          [DocCmd.text "Comment Details (Sample)" 14 20 false,
           DocCmd.autoTable 30 ["Sentiment", "Comment Text"] ((tableBody r).take 100)]
            <:+: doc)
      ∧ (∀ (y : Nat) (head : List String) (body : List (List Cell)),
          DocCmd.autoTable y head body ∈ doc → y ≠ 50 →
            y = 30 ∧ head = ["Sentiment", "Comment Text"] ∧ body = (tableBody r).take 100
              ∧ 0 < (tableBody r).length) := by
  refine ⟨_, exportResults_pdf env pg r hr hj ha, ?_, ?_, ?_, ?_, tableBody_length_le r,
    ?_, ?_⟩
  · rw [tableBody_eq]
    rfl
  · intro s
    simp [sampleRows]
  · intro s hs
    simp [sampleRows, Results.getOrEmpty, hs]
  · simp only [List.length_take]
    omega
  · intro h
    unfold pdfDocument commentSection
    rw [if_pos h]
    exact (infix_last_two _ _ _ _ _ _).trans
      ((List.prefix_append _ _).isInfix.trans (List.prefix_append _ _).isInfix)
  · intro y head body hmem hy
    rcases autoTable_mem_pdfDocument env _ r y head body hmem with ⟨h50, _⟩ | h30
    · exact absurd h50 hy
    · exact h30

/-- C6 on a result with 25 positive comments, no `negative` member and one neutral
comment: the exported table has the first 20 positive rows followed by the neutral
row. -/
theorem tableBody_rows_witness :
    ∃ doc : List DocCmd, exportResults pdfEnv longPositivePage = ExportOutcome.pdf doc
      ∧ [DocCmd.text "Comment Details (Sample)" 14 20 false,
         DocCmd.autoTable 30 ["Sentiment", "Comment Text"]
          (List.replicate 20 [Cell.str "POSITIVE", Cell.str "p"]
            ++ [[Cell.str "NEUTRAL", Cell.str "n"]])] <:+: doc := by
  obtain ⟨doc, hdoc, _, _, _, _, _, hsec, _⟩ :=
    tableBody_rows pdfEnv longPositivePage
      { positive := some (List.replicate 25 "p"), negative := none, neutral := some ["n"],
        counts := none, total_count := none, stats := false } rfl rfl rfl
  have hrows : (tableBody
      { positive := some (List.replicate 25 "p"), negative := none, neutral := some ["n"],
        counts := none, total_count := none, stats := false }).take 100
      = List.replicate 20 [Cell.str "POSITIVE", Cell.str "p"]
          ++ [[Cell.str "NEUTRAL", Cell.str "n"]] := by decide
  have h := hsec (by decide)
  rw [hrows] at h
  exact ⟨doc, hdoc, h⟩

/-- C9: without a `counts` object `displayResults` counts the elements of each comment
array (none when the array is missing) and takes their sum as total; these are the
numbers on the cards. -/
theorem displayCounts_derived (data : SingleData) (pg : Page)
    (h : data.results.counts = none) :
    displayCounts data.results
        = { positive := (data.results.positive.getD []).length
            negative := (data.results.negative.getD []).length
            neutral := (data.results.neutral.getD []).length
            total := (data.results.positive.getD []).length
              + (data.results.negative.getD []).length
              + (data.results.neutral.getD []).length }
    ∧ ∃ pg1 : Page, loadAnalysis data pg = some pg1
      ∧ pg1.statCards
        = [toString (data.results.positive.getD []).length,
           toString (data.results.negative.getD []).length,
           toString (data.results.neutral.getD []).length,
           toString ((data.results.positive.getD []).length
              + (data.results.negative.getD []).length
              + (data.results.neutral.getD []).length)] := by
  have hc : displayCounts data.results
        = { positive := (data.results.positive.getD []).length
            negative := (data.results.negative.getD []).length
            neutral := (data.results.neutral.getD []).length
            total := (data.results.positive.getD []).length
              + (data.results.negative.getD []).length
              + (data.results.neutral.getD []).length } := by
    unfold displayCounts
    rw [h]
    rfl
  refine ⟨hc, ?_⟩
  unfold loadAnalysis displayResults
  simp only
  rw [hc]
  exact (displayComments_keeps Sentiment.positive _ data.results rfl).imp
    (fun pg1 h => ⟨h.1, h.2.trans rfl⟩)

/-- C9 on a result with two positive comments, one negative and no `neutral` member. -/
theorem displayCounts_derived_witness :
    singleNoCounts.results.counts = none
    ∧ displayCounts singleNoCounts.results
      = { positive := 2, negative := 1, neutral := 0, total := 3 } :=
  ⟨rfl, (displayCounts_derived singleNoCounts Page.initial rfl).1⟩

theorem tableBody_eq_nil_iff (r : Results) :
    tableBody r = [] ↔ ∀ s : Sentiment, r.getOrEmpty s = [] := by
  rw [tableBody_eq]
  simp only [List.append_eq_nil, sampleRows, List.map_eq_nil_iff, List.take_eq_nil_iff]
  constructor
  · rintro ⟨⟨h1, h2⟩, h3⟩ s
    cases s
    · simpa using h1
    · simpa using h2
    · simpa using h3
  · intro h
    exact ⟨⟨Or.inr (h _), Or.inr (h _)⟩, Or.inr (h _)⟩

/-- C10: when no category has a comment, the export draws the placeholder line and no
comment table; when some category has a comment it draws the table and no
placeholder; either way the PDF path goes through and the document contains this
section. -/
theorem commentSection_cases (r : Results) (env : ExportEnv) (pg : Page) :
    ((∀ s : Sentiment, r.getOrEmpty s = []) → commentSection r = noCommentsLine)
    ∧ ((∃ s : Sentiment, r.getOrEmpty s ≠ []) → commentSection r
        = [DocCmd.autoTable 30 ["Sentiment", "Comment Text"] ((tableBody r).take 100)])
    ∧ (pg.currentResults = some r → env.jspdf = true → env.autoTablePlugin = true →
        ∃ doc, exportResults env pg = ExportOutcome.pdf doc ∧ commentSection r <:+: doc) := by
  refine ⟨?_, ?_, ?_⟩
  · intro h
    have h0 : tableBody r = [] := (tableBody_eq_nil_iff r).mpr h
    unfold commentSection
    rw [h0]
    rfl
  · intro h
    have h0 : tableBody r ≠ [] := fun hnil => by
      obtain ⟨s, hs⟩ := h
      exact hs ((tableBody_eq_nil_iff r).mp hnil s)
    unfold commentSection
    rw [if_pos (List.length_pos.mpr h0)]
  · intro hr hj ha
    unfold exportResults
    rw [hr]
    simp only [hj, ha, Bool.and_self, if_true]
    refine ⟨_, rfl, ?_⟩
    unfold pdfDocument
    exact (List.suffix_append _ _).isInfix.trans
      ((List.prefix_append _ _).isInfix.trans (List.prefix_append _ _).isInfix)

/-- C10 on a result whose three arrays are empty or missing, and on `singleNoCounts`. -/
theorem commentSection_cases_witness :
    commentSection
        { positive := some [], negative := none, neutral := some [],
          counts := none, total_count := none, stats := false }
      = noCommentsLine
    ∧ commentSection singleNoCounts.results
      = [DocCmd.autoTable 30 ["Sentiment", "Comment Text"]
          [[Cell.str "POSITIVE", Cell.str "great"], [Cell.str "POSITIVE", Cell.str "love it"],
           [Cell.str "NEGATIVE", Cell.str "meh"]]] := by
  constructor
  · exact (commentSection_cases _ pdfEnv Page.initial).1 (by intro s; cases s <;> rfl)
  · rw [(commentSection_cases singleNoCounts.results pdfEnv Page.initial).2.1
      ⟨Sentiment.positive, by decide⟩]
    decide

theorem run_charts (call : ChartCall) (pg : Page) :
    (call.run pg).charts
      = (match pg.held call.kind with
          | some h => destroyChart h pg.charts
          | none => pg.charts)
        ++ [{ kind := call.kind
              data := [call.counts.positive, call.counts.negative, call.counts.neutral]
              destroyed := false }] := by
  cases call <;>
    simp only [ChartCall.run, createBarChart, createPieChart, replaceChart, Page.held,
      ChartCall.kind, ChartCall.counts]
  · cases pg.barChart <;> rfl
  · cases pg.pieChart <;> rfl

theorem run_chartLog (call : ChartCall) (pg : Page) :
    (call.run pg).chartLog
      = (match pg.held call.kind with
          | some h => pg.chartLog ++ [ChartEvent.destroyed h]
          | none => pg.chartLog)
        ++ [ChartEvent.created call.kind pg.charts.length] := by
  cases call <;>
    simp only [ChartCall.run, createBarChart, createPieChart, replaceChart, Page.held,
      ChartCall.kind, ChartCall.counts]
  · cases pg.barChart <;> simp [destroyChart]
  · cases pg.pieChart <;> simp [destroyChart]

theorem run_held (call : ChartCall) (pg : Page) (k : ChartKind) :
    (call.run pg).held k = if k = call.kind then some pg.charts.length else pg.held k := by
  cases call <;> cases k <;>
    simp only [ChartCall.run, createBarChart, createPieChart, replaceChart, Page.held,
      ChartCall.kind, ChartCall.counts]
  · cases pg.barChart <;> simp [destroyChart]
  · simp
  · simp
  · cases pg.pieChart <;> simp [destroyChart]

theorem chartsOk_initial : ChartsOk Page.initial := by
  constructor
  · intro i c h; simp [Page.initial] at h
  · intro k i h; cases k <;> simp [Page.initial, Page.held] at h
  · intro a k i h; simp [Page.initial] at h
  · intro a b k i j _ h; simp [Page.initial] at h

theorem getElem?_snoc {α : Type} (l : List α) (x y : α) (i : Nat) :
    (l ++ [x])[i]? = some y ↔ l[i]? = some y ∨ (i = l.length ∧ x = y) := by
  rcases Nat.lt_or_ge i l.length with h | h
  · rw [List.getElem?_append_left h]
    constructor
    · intro h1; exact Or.inl h1
    · rintro (h1 | ⟨h1, _⟩)
      · exact h1
      · omega
  · rw [List.getElem?_append_right h]
    have hnone : l[i]? = none := List.getElem?_eq_none h
    rw [hnone]
    constructor
    · intro h1
      have h2 : i - l.length = 0 := by
        by_contra h3
        have : [x][i - l.length]? = none := List.getElem?_eq_none (by simp; omega)
        rw [this] at h1; cases h1
      rw [h2] at h1
      simp at h1
      exact Or.inr ⟨by omega, h1⟩
    · rintro (h1 | ⟨h1, h2⟩)
      · cases h1
      · rw [h1, Nat.sub_self, h2]; rfl

theorem getElem?_destroyChart (h0 i : Nat) (l : List ChartInstance) (c : ChartInstance) :
    (destroyChart h0 l)[i]? = some c ↔
      ∃ c0, l[i]? = some c0 ∧ c = if h0 = i then { c0 with destroyed := true } else c0 := by
  unfold destroyChart
  rw [List.getElem?_modify]
  cases l[i]? with
  | none => simp
  | some c0 =>
    simp only [Option.map_eq_map, Option.map_some', Option.some.injEq]
    constructor
    · intro h; exact ⟨c0, rfl, h.symm⟩
    · rintro ⟨c1, h1, h2⟩; rw [h2, h1]

theorem getElem?_lt_length {α : Type} (l : List α) (i : Nat) (y : α) (h : l[i]? = some y) :
    i < l.length := by
  by_contra hge
  rw [List.getElem?_eq_none (by omega)] at h
  cases h

theorem chartsOk_run (call : ChartCall) (pg : Page) (ok : ChartsOk pg) :
    ChartsOk (call.run pg) := by
  have hlen : ∀ h0, (destroyChart h0 pg.charts).length = pg.charts.length := by
    intro h0; simp [destroyChart]
  constructor
  · -- a live chart is the held one
    intro i c hi hlive
    rw [run_charts, getElem?_snoc] at hi
    rw [run_held]
    rcases hi with hi | ⟨hi, hc⟩
    · cases hh : pg.held call.kind with
      | none =>
        rw [hh] at hi
        have h1 := ok.live_held i c hi hlive
        have hk : c.kind ≠ call.kind := by
          intro e; rw [e, hh] at h1; cases h1
        rw [if_neg hk]; exact h1
      | some h0 =>
        rw [hh] at hi
        obtain ⟨c0, hc0, hceq⟩ := (getElem?_destroyChart h0 i pg.charts c).mp hi
        by_cases hhi : h0 = i
        · rw [if_pos hhi] at hceq
          rw [hceq] at hlive
          cases hlive
        · rw [if_neg hhi] at hceq
          subst hceq
          have h1 := ok.live_held i c hc0 hlive
          have hk : c.kind ≠ call.kind := by
            intro e; rw [e, hh] at h1
            exact hhi (Option.some.inj h1)
          rw [if_neg hk]; exact h1
    · subst hc
      rw [if_pos rfl]
      cases hh : pg.held call.kind with
      | none => rw [hh] at hi; rw [hi]
      | some h0 => rw [hh] at hi; rw [hi, hlen]
  · -- the held chart is live
    intro k i hk
    rw [run_held] at hk
    rw [run_charts]
    by_cases hkk : k = call.kind
    · rw [if_pos hkk] at hk
      have hi : i = pg.charts.length := (Option.some.inj hk).symm
      refine ⟨_, (getElem?_snoc _ _ _ _).mpr (Or.inr ⟨?_, rfl⟩), hkk.symm, rfl⟩
      cases pg.held call.kind with
      | none => exact hi
      | some h0 => rw [hlen]; exact hi
    · rw [if_neg hkk] at hk
      obtain ⟨c, hc, hck, hcl⟩ := ok.held_live k i hk
      refine ⟨c, (getElem?_snoc _ _ _ _).mpr (Or.inl ?_), hck, hcl⟩
      cases hh : pg.held call.kind with
      | none => exact hc
      | some h0 =>
        refine (getElem?_destroyChart h0 i pg.charts c).mpr ⟨c, hc, ?_⟩
        have hne : h0 ≠ i := by
          intro e
          obtain ⟨c1, hc1, hck1, _⟩ := ok.held_live call.kind h0 hh
          rw [e, hc] at hc1
          have : c = c1 := Option.some.inj hc1
          rw [← this, hck] at hck1
          exact hkk hck1
        rw [if_neg hne]
  · -- a creation is followed by the destruction, or the chart is held
    intro a k i ha
    rw [run_chartLog, getElem?_snoc] at ha
    rw [run_held, run_chartLog]
    rcases ha with ha | ⟨_, hev⟩
    · have hold : pg.chartLog[a]? = some (ChartEvent.created k i) := by
        cases hh : pg.held call.kind with
        | none => rw [hh] at ha; exact ha
        | some h0 =>
          rw [hh] at ha
          rcases (getElem?_snoc _ _ _ _).mp ha with h1 | ⟨_, h1⟩
          · exact h1
          · cases h1
      rcases ok.created_then a k i hold with ⟨m, hm, hdm⟩ | hheld
      · left
        refine ⟨m, hm, (getElem?_snoc _ _ _ _).mpr (Or.inl ?_)⟩
        cases pg.held call.kind with
        | none => exact hdm
        | some h0 => exact (getElem?_snoc _ _ _ _).mpr (Or.inl hdm)
      · by_cases hkk : k = call.kind
        · left
          rw [hkk] at hheld
          rw [hheld]
          refine ⟨pg.chartLog.length, getElem?_lt_length _ _ _ hold,
            (getElem?_snoc _ _ _ _).mpr (Or.inl ?_)⟩
          exact (getElem?_snoc _ _ _ _).mpr (Or.inr ⟨rfl, rfl⟩)
        · right
          rw [if_neg hkk]; exact hheld
    · right
      cases hev
      rw [if_pos rfl]
  · -- between two creations of one kind the earlier chart is destroyed
    intro a b k i j hab ha hb
    rw [run_chartLog] at ha hb ⊢
    rw [getElem?_snoc] at hb
    have hold : ∀ (x : Nat) (ev : ChartEvent),
        (match pg.held call.kind with
          | some h => pg.chartLog ++ [ChartEvent.destroyed h]
          | none => pg.chartLog)[x]? = some ev →
        pg.chartLog[x]? = some ev
          ∨ (x = pg.chartLog.length ∧ ∃ h0, pg.held call.kind = some h0
              ∧ ev = ChartEvent.destroyed h0) := by
      intro x ev hx
      cases hh : pg.held call.kind with
      | none => rw [hh] at hx; exact Or.inl hx
      | some h0 =>
        rw [hh] at hx
        rcases (getElem?_snoc _ _ _ _).mp hx with h1 | ⟨h1, h2⟩
        · exact Or.inl h1
        · exact Or.inr ⟨h1, h0, rfl, h2.symm⟩
    have hmono : ∀ (x : Nat) (ev : ChartEvent), pg.chartLog[x]? = some ev →
        ((match pg.held call.kind with
          | some h => pg.chartLog ++ [ChartEvent.destroyed h]
          | none => pg.chartLog)
          ++ [ChartEvent.created call.kind pg.charts.length])[x]? = some ev := by
      intro x ev hx
      refine (getElem?_snoc _ _ _ _).mpr (Or.inl ?_)
      cases pg.held call.kind with
      | none => exact hx
      | some h0 => exact (getElem?_snoc _ _ _ _).mpr (Or.inl hx)
    rcases hb with hb | ⟨hbidx, hbev⟩
    · -- the later creation is an old one
      rcases hold b _ hb with hb1 | ⟨_, _, _, hb2⟩
      · have hblt := getElem?_lt_length _ _ _ hb1
        have ha1 : pg.chartLog[a]? = some (ChartEvent.created k i) := by
          rcases (getElem?_snoc _ _ _ _).mp ha with ha2 | ⟨ha2, _⟩
          · rcases hold a _ ha2 with ha3 | ⟨ha3, _⟩
            · exact ha3
            · omega
          · have := getElem?_lt_length _ _ _ hb
            omega
        obtain ⟨m, h1, h2, h3⟩ := ok.destroyed_between a b k i j hab ha1 hb1
        exact ⟨m, h1, h2, hmono m _ h3⟩
      · cases hb2
    · -- the later creation is the new one
      cases hbev
      have ha1 : pg.chartLog[a]? = some (ChartEvent.created call.kind i) := by
        rcases (getElem?_snoc _ _ _ _).mp ha with ha2 | ⟨ha2, _⟩
        · rcases hold a _ ha2 with ha3 | ⟨_, _, _, ha3⟩
          · exact ha3
          · cases ha3
        · omega
      have halt := getElem?_lt_length _ _ _ ha1
      rcases ok.created_then a call.kind i ha1 with ⟨m, hm, hdm⟩ | hheld
      · have hmlt := getElem?_lt_length _ _ _ hdm
        refine ⟨m, hm, ?_, hmono m _ hdm⟩
        rw [hbidx]
        cases pg.held call.kind with
        | none => exact hmlt
        | some h0 => simp; omega
      · refine ⟨pg.chartLog.length, halt, ?_, ?_⟩
        · rw [hbidx, hheld]; simp
        · rw [hheld]
          refine (getElem?_snoc _ _ _ _).mpr (Or.inl ?_)
          exact (getElem?_snoc _ _ _ _).mpr (Or.inr ⟨rfl, rfl⟩)

theorem runCalls_snoc (calls : List ChartCall) (call : ChartCall) (pg : Page) :
    runCalls (calls ++ [call]) pg = call.run (runCalls calls pg) := by
  simp [runCalls, List.foldl_append]

theorem latestCounts_snoc (k : ChartKind) (calls : List ChartCall) (call : ChartCall) :
    latestCounts k (calls ++ [call])
      = if call.kind = k then some call.counts else latestCounts k calls := by
  unfold latestCounts
  rw [List.reverse_append, List.reverse_singleton, List.singleton_append, List.find?_cons]
  by_cases h : call.kind = k
  · simp [h]
  · simp [h]

theorem chartsOk_runCalls (calls : List ChartCall) : ChartsOk (runCalls calls Page.initial) := by
  induction calls using List.reverseRecOn with
  | nil => exact chartsOk_initial
  | append_singleton calls call ih =>
    rw [runCalls_snoc]
    exact chartsOk_run call _ ih

theorem held_latest (calls : List ChartCall) (k : ChartKind) (counts : Counts)
    (h : latestCounts k calls = some counts) :
    ∃ i, (runCalls calls Page.initial).held k = some i
      ∧ (runCalls calls Page.initial).charts[i]?
        = some { kind := k
                 data := [counts.positive, counts.negative, counts.neutral]
                 destroyed := false } := by
  induction calls using List.reverseRecOn with
  | nil => simp [latestCounts] at h
  | append_singleton calls call ih =>
    rw [latestCounts_snoc] at h
    rw [runCalls_snoc]
    have ok := chartsOk_runCalls calls
    generalize runCalls calls Page.initial = pg at ih ok ⊢
    by_cases hk : call.kind = k
    · rw [if_pos hk] at h
      have hc : call.counts = counts := Option.some.inj h
      refine ⟨pg.charts.length, ?_, ?_⟩
      · rw [run_held, if_pos hk.symm]
      · rw [run_charts, getElem?_snoc]
        right
        refine ⟨?_, by rw [hk, hc]⟩
        cases pg.held call.kind with
        | none => rfl
        | some h0 => simp [destroyChart]
    · rw [if_neg hk] at h
      obtain ⟨i, hi, hci⟩ := ih h
      refine ⟨i, ?_, ?_⟩
      · rw [run_held, if_neg (fun e => hk e.symm)]; exact hi
      · rw [run_charts, getElem?_snoc]
        left
        cases hh : pg.held call.kind with
        | none => exact hci
        | some h0 =>
          refine (getElem?_destroyChart h0 i pg.charts _).mpr ⟨_, hci, ?_⟩
          have hne : h0 ≠ i := by
            intro e
            obtain ⟨c1, hc1, hck1, _⟩ := ok.held_live call.kind h0 hh
            rw [e, hci] at hc1
            have : _ = c1 := Option.some.inj hc1
            rw [← this] at hck1
            exact hk hck1.symm
          rw [if_neg hne]

/-- C8: after any sequence of `createBarChart` / `createPieChart` calls from the loaded
page, a chart that has not been destroyed is the one held in the variable of its
kind, so at most one chart per kind is live; the held chart carries the series
`[positive, negative, neutral]` of the latest call of its kind; and in the log the
destruction of a chart stands between its creation and the next creation of the
same kind. -/
theorem charts_after_calls (calls : List ChartCall) :
    (∀ (i : Nat) (c : ChartInstance), (runCalls calls Page.initial).charts[i]? = some c →
        c.destroyed = false → (runCalls calls Page.initial).held c.kind = some i)
    ∧ (∀ (i j : Nat) (c d : ChartInstance),
        (runCalls calls Page.initial).charts[i]? = some c →
        (runCalls calls Page.initial).charts[j]? = some d →
        c.destroyed = false → d.destroyed = false → c.kind = d.kind → i = j)
    ∧ (∀ (k : ChartKind) (counts : Counts), latestCounts k calls = some counts →
        ∃ i, (runCalls calls Page.initial).held k = some i
          ∧ (runCalls calls Page.initial).charts[i]?
            = some { kind := k
                     data := [counts.positive, counts.negative, counts.neutral]
                     destroyed := false })
    ∧ (∀ (a b : Nat) (k : ChartKind) (i j : Nat), a < b →
        (runCalls calls Page.initial).chartLog[a]? = some (ChartEvent.created k i) →
        (runCalls calls Page.initial).chartLog[b]? = some (ChartEvent.created k j) →
        ∃ m, a < m ∧ m < b
          ∧ (runCalls calls Page.initial).chartLog[m]? = some (ChartEvent.destroyed i)) := by
  have ok := chartsOk_runCalls calls
  refine ⟨ok.live_held, ?_, held_latest calls, ok.destroyed_between⟩
  intro i j c d hc hd hcl hdl hk
  have h1 := ok.live_held i c hc hcl
  have h2 := ok.live_held j d hd hdl
  rw [hk, h2] at h1
  exact (Option.some.inj h1).symm

/-- C8 after rendering twice (bar, pie, bar, pie) with counts 7, 2, 1 and then 4, 5, 6:
the held bar chart carries `[4, 5, 6]`, and it is the last but one chart made. -/
theorem charts_after_calls_witness :
    ∃ i, (runCalls [ChartCall.bar ⟨7, 2, 1, 10⟩, ChartCall.pie ⟨7, 2, 1, 10⟩,
            ChartCall.bar ⟨4, 5, 6, 15⟩, ChartCall.pie ⟨4, 5, 6, 15⟩] Page.initial).held
          ChartKind.bar = some i
      ∧ (runCalls [ChartCall.bar ⟨7, 2, 1, 10⟩, ChartCall.pie ⟨7, 2, 1, 10⟩,
            ChartCall.bar ⟨4, 5, 6, 15⟩, ChartCall.pie ⟨4, 5, 6, 15⟩] Page.initial).charts[i]?
        = some { kind := ChartKind.bar, data := [4, 5, 6], destroyed := false } :=
  (charts_after_calls [ChartCall.bar ⟨7, 2, 1, 10⟩, ChartCall.pie ⟨7, 2, 1, 10⟩,
    ChartCall.bar ⟨4, 5, 6, 15⟩, ChartCall.pie ⟨4, 5, 6, 15⟩]).2.2.1 ChartKind.bar
    ⟨4, 5, 6, 15⟩ (by decide)

theorem foldl_append_data (l : List String) (acc : String) :
    (l.foldl (fun r s => r ++ s) acc).data = acc.data ++ (l.map String.data).flatten := by
  induction l generalizing acc with
  | nil => simp
  | cons x xs ih => simp [ih, String.data_append]

theorem join_data (l : List String) : (String.join l).data = (l.map String.data).flatten := by
  unfold String.join
  rw [foldl_append_data]
  rfl

theorem escapeChar_no_angle (ch c : Char) (h : c ∈ (escapeChar ch).data) :
    c ≠ '<' ∧ c ≠ '>' := by
  unfold escapeChar at h
  split_ifs at h with h1 h2 h3 h4
  · have : c ∈ ['&', 'a', 'm', 'p', ';'] := h
    simp only [List.mem_cons, List.mem_singleton, List.not_mem_nil, or_false] at this
    rcases this with e | e | e | e | e <;> subst e <;> decide
  · have : c ∈ ['&', 'l', 't', ';'] := h
    simp only [List.mem_cons, List.mem_singleton, List.not_mem_nil, or_false] at this
    rcases this with e | e | e | e <;> subst e <;> decide
  · have : c ∈ ['&', 'g', 't', ';'] := h
    simp only [List.mem_cons, List.mem_singleton, List.not_mem_nil, or_false] at this
    rcases this with e | e | e | e <;> subst e <;> decide
  · have : c ∈ ['&', 'n', 'b', 's', 'p', ';'] := h
    simp only [List.mem_cons, List.mem_singleton, List.not_mem_nil, or_false] at this
    rcases this with e | e | e | e | e | e <;> subst e <;> decide
  · have : c ∈ [ch] := h
    simp only [List.mem_singleton] at this
    subst this
    exact ⟨h2, h3⟩

theorem escapeHtml_no_angle (text : String) (c : Char) (h : c ∈ (escapeHtml text).data) :
    c ≠ '<' ∧ c ≠ '>' := by
  unfold escapeHtml at h
  rw [join_data, List.mem_flatten] at h
  obtain ⟨l, hl, hc⟩ := h
  rw [List.mem_map] at hl
  obtain ⟨s, hs, rfl⟩ := hl
  rw [List.mem_map] at hs
  obtain ⟨ch, _, rfl⟩ := hs
  exact escapeChar_no_angle ch c hc

/-- C11: with results loaded, `displayComments` writes exactly the placeholder
`No comments in this category` when the category's array is empty or missing, and
otherwise the items of its comments joined in source order, one per comment, each
holding the escaped comment text (which has no `<` or `>` left); nothing but the
comment container changes and only `currentResults` is read. -/
theorem displayComments_renders (s : Sentiment) (pg : Page) (r : Results)
    (h : pg.currentResults = some r) :
    (r.getOrEmpty s = [] →
        displayComments s pg = some { pg with commentsContainer := noCommentsMarkup })
    ∧ (r.getOrEmpty s ≠ [] →
        displayComments s pg = some { pg with
          commentsContainer := String.join ((r.getOrEmpty s).map (commentItem s)) })
    ∧ ((r.getOrEmpty s).map (commentItem s)).length = (r.getOrEmpty s).length
    ∧ (∀ comment : String, commentItem s comment
        = "\n        <div class=\"comment-item " ++ s.name ++ "\">\n            "
          ++ escapeHtml comment ++ "\n        </div>\n    ")
    ∧ (∀ (comment : String) (c : Char), c ∈ (escapeHtml comment).data → c ≠ '<' ∧ c ≠ '>') := by
  refine ⟨?_, ?_, List.length_map _ _, fun _ => rfl, escapeHtml_no_angle⟩
  · intro h0
    unfold displayComments
    rw [h]
    simp only [Results.getOrEmpty] at h0 ⊢
    cases hg : r.get s with
    | none => rfl
    | some comments =>
      rw [hg] at h0
      simp only [Option.getD_some] at h0
      subst h0
      rfl
  · intro h0
    unfold displayComments
    rw [h]
    simp only [Results.getOrEmpty] at h0 ⊢
    cases hg : r.get s with
    | none => rw [hg] at h0; exact absurd rfl h0
    | some comments =>
      rw [hg] at h0
      simp only [Option.getD_some] at h0 ⊢
      rw [if_neg (fun e => h0 (List.length_eq_zero.mp e))]

/-- C11 on a loaded result whose positive comment is `a <b> & c`, whose `negative`
array is empty and whose `neutral` member is missing. -/
theorem displayComments_renders_witness :
    commentsPage.currentResults ≠ none
    ∧ (displayComments Sentiment.positive commentsPage).map Page.commentsContainer
      = some ("\n        <div class=\"comment-item positive\">\n            "
          ++ "a &lt;b&gt; &amp; c" ++ "\n        </div>\n    ")
    ∧ (displayComments Sentiment.negative commentsPage).map Page.commentsContainer
      = some "<p style=\"text-align: center; color: #94a3b8;\">No comments in this category</p>"
    ∧ (displayComments Sentiment.neutral commentsPage).map Page.commentsContainer
      = some "<p style=\"text-align: center; color: #94a3b8;\">No comments in this category</p>" := by
  refine ⟨by decide, ?_, ?_, ?_⟩
  · rw [(displayComments_renders Sentiment.positive commentsPage _ rfl).2.1 (by decide)]
    decide
  · rw [(displayComments_renders Sentiment.negative commentsPage _ rfl).1 (by decide)]
    decide
  · rw [(displayComments_renders Sentiment.neutral commentsPage _ rfl).1 (by decide)]
    decide

end Dashboard
